import Mathlib

/-!
# Mandelbrot generator: embedding of `main.cpp`

The program keeps five global view parameters, polls a batch of window events
per frame, and re-renders a 1920 x 1080 image by the escape-time algorithm
whenever the `render` flag is set.

Conventions of the embedding.

* `double` values live in an arbitrary linearly ordered field `K` with a floor
  function (`ℚ` for evaluation, `ℝ` for the statements over exact real
  arithmetic).  The two library functions `log` and `sqrt` are passed to the
  definitions that call them.
* `unsigned int MAX_ITER` is a natural number below `2 ^ 32`; `+= 10` and
  `-= 10` yield the exact sum or difference reduced modulo `2 ^ 32`.
* `int` variables are integers in `[-2 ^ 31, 2 ^ 31)`.  The increment
  `iteration++` wraps around in two's complement (`wrapInt32`); C++ leaves
  the overflow undefined, and wrapping is what the compiled program does.
  The comparison `iteration < MAX_ITER` converts the `int` to `unsigned int`
  (`toUInt32`).
* `int resolution` is represented by a natural number, the loops being run
  with a positive stride by every caller; a stride of `0` never leaves the
  `for` loop, which the embedding renders as `none`.
* A conversion `double -> int` truncates toward zero when the result fits the
  `int`, and yields `INT_MIN` when it does not (undefined in C++; `INT_MIN` is
  the result of the x86-64 conversion instruction); `int -> sf::Uint8` reduces
  modulo `256`; `int -> unsigned int` reduces modulo `2 ^ 32`.
* A `double` is an element of an ordered field: infinities and NaN, which the
  program's `double` variables can reach, have no counterpart here.
-/

namespace Mandelbrot

/-! ## Globals (main.cpp, lines 9-15) -/

/-- Width of the image, `constexpr int IMG_SIZE_X = 1920`. -/
def IMG_SIZE_X : Nat := 1920

/-- Height of the image, `constexpr int IMG_SIZE_Y = 1080`. -/
def IMG_SIZE_Y : Nat := 1080

/-- The mutable globals of the program: `MAX_ITER`, `resolution`, `zoomDepth`,
`offsetY`, `offsetX`. -/
structure ViewParameters (K : Type) where
  MAX_ITER : Nat
  resolution : Nat
  zoomDepth : K
  offsetY : K
  offsetX : K

/-- Initial values of the globals (lines 9-15). -/
def defaults {K : Type} [LinearOrderedField K] : ViewParameters K :=
  { MAX_ITER := 120, resolution := 1, zoomDepth := 0.004, offsetY := 0.0, offsetX := 0.0 }

/-! ## Integer conversions -/

/-- Conversion `double -> int`: the fractional part is discarded; when the
integer part does not fit the 32-bit `int` the result is `INT_MIN`. -/
def truncToInt {K : Type} [LinearOrderedField K] [FloorRing K] (v : K) : Int :=
  if -2147483649 < v ∧ v < 2147483648 then (if 0 ≤ v then ⌊v⌋ else ⌈v⌉) else -2147483648

/-- The conversion `double -> int` on whole numbers: `m` when it fits the
32-bit `int`, and `INT_MIN` otherwise. -/
def intOrMin (m : Int) : Int :=
  if -2147483648 ≤ m ∧ m ≤ 2147483647 then m else -2147483648

/-- The 32-bit `int` holding the integer `i` after two's complement wrap-around. -/
def wrapInt32 (i : Int) : Int := (i + 2 ^ 31) % 2 ^ 32 - 2 ^ 31

/-- Conversion to `unsigned int`: reduction modulo `2 ^ 32`. -/
def toUInt32 (i : Int) : Nat := (i % 2 ^ 32).toNat

/-- Conversion `int -> sf::Uint8`. -/
def toUInt8 (i : Int) : Nat := (i % 256).toNat

/-! ## Colours and the image -/

/-- An `sf::Color`: four 8-bit components. -/
structure Color where
  r : Nat
  g : Nat
  b : Nat
  a : Nat
  deriving DecidableEq

/-- The constructor `sf::Color(red, green, blue)` applied to `int` arguments:
each is converted to `sf::Uint8`, alpha defaults to 255. -/
def sfColor (red green blue : Int) : Color :=
  { r := toUInt8 red, g := toUInt8 green, b := toUInt8 blue, a := 255 }

/-- The colour `sf::Color(0, 0, 0)`. -/
def black : Color := sfColor 0 0 0

/-- The pixel grid of an `sf::Image` created with size 1920 x 1080. -/
abbrev Image : Type := Fin IMG_SIZE_X → Fin IMG_SIZE_Y → Color

/-- The call `img.setPixel(x, y, c)`. -/
def setPixel (img : Image) (x y : Nat) (c : Color) : Image :=
  fun i j => if i.val = x ∧ j.val = y then c else img i j

/-! ## The escape-time loop (lines 110-123) -/

/-- The local variables `x`, `y`, `iteration` of the inner `while` loop;
`iteration` is the value of the 32-bit `int`. -/
structure LoopState (K : Type) where
  x : K
  y : K
  iteration : Int

/-- The comparison `iteration < MAX_ITER` of an `int` with the
`unsigned int MAX_ITER` (lines 114 and 124): both sides as `unsigned int`.
For an `unsigned int` value `MAX_ITER % 2 ^ 32` is `MAX_ITER` itself. -/
def counterBelow (MAX_ITER : Nat) (iteration : Int) : Prop :=
  toUInt32 iteration < MAX_ITER % 2 ^ 32

instance counterBelowDecidable (MAX_ITER : Nat) (iteration : Int) :
    Decidable (counterBelow MAX_ITER iteration) := by
  unfold counterBelow
  infer_instance

/-- The loop condition `x*x + y*y <= 4 && iteration < MAX_ITER`. -/
def loopTest {K : Type} [LinearOrderedField K] (MAX_ITER : Nat) (s : LoopState K) : Prop :=
  s.x * s.x + s.y * s.y ≤ 4 ∧ counterBelow MAX_ITER s.iteration

instance loopTestDecidable {K : Type} [LinearOrderedField K] (MAX_ITER : Nat)
    (s : LoopState K) : Decidable (loopTest MAX_ITER s) := by
  unfold loopTest
  infer_instance

/-- One pass through the loop body (lines 116-122). -/
def loopBody {K : Type} [LinearOrderedField K] (re im : K) (s : LoopState K) : LoopState K :=
  let nextX := s.x * s.x - s.y * s.y + re
  let y := 2 * s.x * s.y + im
  let x := nextX
  { x := x, y := y, iteration := wrapInt32 (s.iteration + 1) }

/-- The `while` loop of line 114, run from the state `s` to its exit. -/
def escapeLoop {K : Type} [LinearOrderedField K] (re im : K) (MAX_ITER : Nat)
    (s : LoopState K) : LoopState K :=
  if loopTest MAX_ITER s then escapeLoop re im MAX_ITER (loopBody re im s) else s
termination_by MAX_ITER % 2 ^ 32 - toUInt32 s.iteration
decreasing_by
  simp_wf
  rename_i h
  have hlt := h.2
  simp only [loopBody]
  unfold counterBelow at hlt
  unfold toUInt32 wrapInt32 at *
  omega

/-! ## The body of the render loop (lines 108-129) -/

/-- The point `quote_REAL_endquote` of line 108. -/
def pixelReal {K : Type} [LinearOrderedField K] (p : ViewParameters K) (horizontal : Nat) : K :=
  ((horizontal : K) - (IMG_SIZE_X : K) / 2.0) * p.zoomDepth + p.offsetX

/-- The point `quote_IMAG_endquote` of line 109. -/
def pixelImag {K : Type} [LinearOrderedField K] (p : ViewParameters K) (vertical : Nat) : K :=
  ((vertical : K) - (IMG_SIZE_Y : K) / 2.0) * p.zoomDepth + p.offsetY

/-- The state of the `while` loop of a pixel at its exit. -/
def pixelLoop {K : Type} [LinearOrderedField K] (p : ViewParameters K)
    (horizontal vertical : Nat) : LoopState K :=
  escapeLoop (pixelReal p horizontal) (pixelImag p vertical) p.MAX_ITER
    { x := 0, y := 0, iteration := 0 }

/-- The right-hand side of the assignment of line 127, a `double`. -/
def smoothExpr {K : Type} [LinearOrderedField K] (log sqrt : K → K) (s : LoopState K) : K :=
  let logBase := 1.0 / log 2.0
  let logHalfBase := log 0.5 * logBase
  0 + (s.iteration : K) - logHalfBase - log (log (sqrt (s.x * s.x + s.y * s.y))) * logBase

/-- The value of the `int iteration` when line 129 is reached: the smoothing
branch (lines 124-128) stores its `double` result into the `int` variable. -/
def pixelIteration {K : Type} [LinearOrderedField K] [FloorRing K] (log sqrt : K → K)
    (p : ViewParameters K) (horizontal vertical : Nat) : Int :=
  let s := pixelLoop p horizontal vertical
  if counterBelow p.MAX_ITER s.iteration then truncToInt (smoothExpr log sqrt s)
  else s.iteration

/-- The function `colorGradient` (lines 143-172); `MAX_ITER` is the global read
in its first line. -/
def colorGradient {K : Type} [LinearOrderedField K] [FloorRing K] (MAX_ITER : Nat)
    (iterations : K) : Color :=
  if toUInt32 (truncToInt iterations) = MAX_ITER then
    sfColor 0 0 0
  else if iterations < 16 then
    sfColor (truncToInt (16 * (16 - iterations))) 0 (truncToInt (16 * iterations - 1))
  else if iterations < 32 then
    sfColor 0 (truncToInt (16 * (iterations - 16))) (truncToInt (16 * (32 - iterations) - 1))
  else if iterations < 64 then
    sfColor (truncToInt (8 * (iterations - 32))) (truncToInt (8 * (64 - iterations) - 1)) 0
  else
    sfColor (truncToInt (255 - (iterations - 64) * 4)) 0 0

/-- The colour passed to `img.setPixel` on line 129. -/
def pixelColor {K : Type} [LinearOrderedField K] [FloorRing K] (log sqrt : K → K)
    (p : ViewParameters K) (horizontal vertical : Nat) : Color :=
  colorGradient p.MAX_ITER ((pixelIteration log sqrt p horizontal vertical : Int) : K)

/-! ## The channel values of `colorGradient` (lines 148-168) -/

/-- The local variables `int r, g, b` of `colorGradient`. -/
structure Channels where
  r : Int
  g : Int
  b : Int
  deriving DecidableEq

/-- The assignments of the band `iterations < 16` (lines 150-152). -/
def band1 {K : Type} [LinearOrderedField K] [FloorRing K] (iterations : K) : Channels :=
  { r := truncToInt (16 * (16 - iterations)), g := 0, b := truncToInt (16 * iterations - 1) }

/-- The assignments of the band `iterations < 32` (lines 155-157). -/
def band2 {K : Type} [LinearOrderedField K] [FloorRing K] (iterations : K) : Channels :=
  { r := 0, g := truncToInt (16 * (iterations - 16)),
    b := truncToInt (16 * (32 - iterations) - 1) }

/-- The assignments of the band `iterations < 64` (lines 160-162). -/
def band3 {K : Type} [LinearOrderedField K] [FloorRing K] (iterations : K) : Channels :=
  { r := truncToInt (8 * (iterations - 32)), g := truncToInt (8 * (64 - iterations) - 1),
    b := 0 }

/-- The assignments of the last band (lines 165-167). -/
def band4 {K : Type} [LinearOrderedField K] [FloorRing K] (iterations : K) : Channels :=
  { r := truncToInt (255 - (iterations - 64) * 4), g := 0, b := 0 }

/-- The values of `r`, `g`, `b` when line 169 is reached: the `if` cascade of
lines 149-168. -/
def gradientChannels {K : Type} [LinearOrderedField K] [FloorRing K] (iterations : K) :
    Channels :=
  if iterations < 16 then band1 iterations
  else if iterations < 32 then band2 iterations
  else if iterations < 64 then band3 iterations
  else band4 iterations

/-- Whether the three channel values fit an `sf::Uint8` without reduction. -/
def Channels.InRange (c : Channels) : Prop :=
  (0 ≤ c.r ∧ c.r ≤ 255) ∧ (0 ≤ c.g ∧ c.g ≤ 255) ∧ (0 ≤ c.b ∧ c.b ≤ 255)

/-! ## The render loops (lines 104-131) -/

/-- A loop `for (int i = start; i < bound; i += stride) body`, run with a bound
on the number of passes; `none` when the loop has not ended within that bound. -/
def forLoop {σ : Type} (bound stride : Nat) (body : Nat → σ → Option σ) :
    Nat → Nat → σ → Option σ
  | 0, i, s => if i < bound then none else some s
  | fuel + 1, i, s =>
    if i < bound then (body i s).bind (forLoop bound stride body fuel (i + stride)) else some s

/-- The inner loop over `vertical` for one column (lines 105-130). -/
def renderColumn {K : Type} [LinearOrderedField K] [FloorRing K] (log sqrt : K → K)
    (p : ViewParameters K) (horizontal : Nat) (img : Image) : Option Image :=
  forLoop IMG_SIZE_Y p.resolution
    (fun vertical im =>
      some (setPixel im horizontal vertical (pixelColor log sqrt p horizontal vertical)))
    IMG_SIZE_Y 0 img

/-- The render step (lines 104-131): both loops, writing into `img`. -/
def render {K : Type} [LinearOrderedField K] [FloorRing K] (log sqrt : K → K)
    (p : ViewParameters K) (img : Image) : Option Image :=
  forLoop IMG_SIZE_X p.resolution (fun horizontal im => renderColumn log sqrt p horizontal im)
    IMG_SIZE_X 0 img

/-- The coordinates passed to `img.setPixel` by the inner loop for one column,
appended in order to `writes`. -/
def renderColumnWrites (resolution horizontal : Nat) (writes : List (Nat × Nat)) :
    Option (List (Nat × Nat)) :=
  forLoop IMG_SIZE_Y resolution
    (fun vertical w => some (w ++ [(horizontal, vertical)]))
    IMG_SIZE_Y 0 writes

/-- The coordinates passed to `img.setPixel` by one render step, in order. -/
def renderWrites (resolution : Nat) : Option (List (Nat × Nat)) :=
  forLoop IMG_SIZE_X resolution
    (fun horizontal w => renderColumnWrites resolution horizontal w)
    IMG_SIZE_X 0 []

/-- The image after the calls `img.setPixel(h, v, c h v)` for the coordinates of
`writes`, in order. -/
def applyWrites (c : Nat → Nat → Color) (img : Image) (writes : List (Nat × Nat)) : Image :=
  writes.foldl (fun im hv => setPixel im hv.1 hv.2 (c hv.1 hv.2)) img

/-! ## Events and frames (lines 36-139) -/

/-- The key codes the `switch` distinguishes; `Other` is any other key. -/
inductive Key where
  | Equal | Escape | Dash | W | A | S | D | Right | Left | R | Other
  deriving DecidableEq

/-- The events the poll loop distinguishes; `Other` is any other event type. -/
inductive Event where
  | Closed
  | KeyPressed (code : Key)
  | Other
  deriving DecidableEq

/-- The globals together with the local flag `render`. -/
structure AppState (K : Type) where
  params : ViewParameters K
  render : Bool

/-- The state when the main loop is entered: `bool render = true`. -/
def initialState {K : Type} [LinearOrderedField K] : AppState K :=
  { params := defaults, render := true }

/-- The `switch` on the key code (lines 46-84), entered with `render = true`;
`none` is the `return 0` of the Escape key. -/
def keyPressed {K : Type} [LinearOrderedField K] (p : ViewParameters K) :
    Key → Option (AppState K)
  | Key.Equal => some { params := { p with zoomDepth := p.zoomDepth * 0.9 }, render := true }
  | Key.Escape => none
  | Key.Dash => some { params := { p with zoomDepth := p.zoomDepth / 0.9 }, render := true }
  | Key.W => some { params := { p with offsetY := p.offsetY - 40 * p.zoomDepth }, render := true }
  | Key.A => some { params := { p with offsetX := p.offsetX - 40 * p.zoomDepth }, render := true }
  | Key.S => some { params := { p with offsetY := p.offsetY + 40 * p.zoomDepth }, render := true }
  | Key.D => some { params := { p with offsetX := p.offsetX + 40 * p.zoomDepth }, render := true }
  | Key.Right =>
    some { params := { p with MAX_ITER := toUInt32 ((p.MAX_ITER : Int) + 10) }, render := true }
  | Key.Left =>
    some { params := { p with MAX_ITER := toUInt32 ((p.MAX_ITER : Int) - 10) }, render := true }
  | Key.R =>
    some { params := { offsetX := 0, offsetY := 0, MAX_ITER := 120, resolution := 1,
                       zoomDepth := 0.004 },
           render := true }
  | Key.Other => some { params := p, render := false }

/-- The body of the poll loop for one event (lines 40-85); `none` is `return 0`. -/
def handleEvent {K : Type} [LinearOrderedField K] (st : AppState K) : Event → Option (AppState K)
  | Event.Closed => none
  | Event.KeyPressed code => keyPressed st.params code
  | Event.Other => some st

/-- The poll loop `while (newWindow.pollEvent(event))` over the events queued
for one frame. -/
def pollEvents {K : Type} [LinearOrderedField K] (st : AppState K) :
    List Event → Option (AppState K)
  | [] => some st
  | e :: es => (handleEvent st e).bind (fun st1 => pollEvents st1 es)

/-- One pass of the main loop (lines 38-138): poll the batch, render when the
flag is set, then clear the flag.  `none` when the pass is not completed. -/
def frame {K : Type} [LinearOrderedField K] [FloorRing K] (log sqrt : K → K)
    (st : AppState K) (img : Image) (batch : List Event) : Option (AppState K × Image) :=
  (pollEvents st batch).bind (fun st1 =>
    if st1.render then
      (render log sqrt st1.params img).map (fun img1 => ({ st1 with render := false }, img1))
    else
      some ({ st1 with render := false }, img))

/-- The main loop over a sequence of event batches, one per frame. -/
def runFrames {K : Type} [LinearOrderedField K] [FloorRing K] (log sqrt : K → K)
    (st : AppState K) (img : Image) : List (List Event) → Option (AppState K × Image)
  | [] => some (st, img)
  | batch :: rest =>
    (frame log sqrt st img batch).bind (fun r => runFrames log sqrt r.1 r.2 rest)

/-- The states the program can be in between two events: the initial state,
the state after one more event of the poll loop, and the state after the end of
a frame (`render = false`, line 135; the render step changes no variable of the
state). -/
inductive Reachable {K : Type} [LinearOrderedField K] : AppState K → Prop
  | init : Reachable initialState
  | event (st st1 : AppState K) (e : Event) :
      Reachable st → handleEvent st e = some st1 → Reachable st1
  | frameEnd (st : AppState K) : Reachable st → Reachable { st with render := false }

/-- The part of the invariant of the specification that every event preserves,
together with the range of the `unsigned int`. -/
def ParamsInv {K : Type} [LinearOrderedField K] (p : ViewParameters K) : Prop :=
  p.resolution = 1 ∧ 0 < p.zoomDepth ∧ p.MAX_ITER < 2 ^ 32

/-! ## Definitions taken from the specification, for comparison -/

/-- The smooth count of the specification,
`iteration - log2(log2(sqrt(x*x+y*y))) + log2(log2(2))`, over a base-2 logarithm `log2`. -/
def specSmoothIter {K : Type} [LinearOrderedField K] (log2 sqrt : K → K) (iteration : Int)
    (x y : K) : K :=
  (iteration : K) - log2 (log2 (sqrt (x * x + y * y))) + log2 (log2 2)

/-- The clamp of a channel value to `[0, 255]` that the specification asks for. -/
def clampChannel (c : Int) : Int := max 0 (min 255 c)

/-- The clamp applied to the three channels. -/
def clampChannels (c : Channels) : Channels :=
  { r := clampChannel c.r, g := clampChannel c.g, b := clampChannel c.b }

/-! ## The escape-time loop: general facts -/

theorem toUInt32_natCast {M : Nat} (hM : M < 2 ^ 32) : toUInt32 (M : Int) = M := by
  unfold toUInt32
  omega

theorem toUInt32_lt (i : Int) : toUInt32 i < 2 ^ 32 := by
  unfold toUInt32
  omega

theorem wrapInt32_of_fits {i : Int} (h1 : -2147483648 ≤ i) (h2 : i ≤ 2147483647) :
    wrapInt32 i = i := by
  unfold wrapInt32
  omega

theorem wrapInt32_range (i : Int) : -2147483648 ≤ wrapInt32 i ∧ wrapInt32 i ≤ 2147483647 := by
  unfold wrapInt32
  omega

theorem toUInt32_wrapInt32 (i : Int) : toUInt32 (wrapInt32 i) = toUInt32 i := by
  unfold toUInt32 wrapInt32
  omega

theorem toUInt32_wrapInt32_natCast {k : Nat} (hk : k < 2 ^ 32) :
    toUInt32 (wrapInt32 (k : Int)) = k := by
  rw [toUInt32_wrapInt32, toUInt32_natCast hk]

theorem wrapInt32_natCast_of_ge {k : Nat} (h1 : 2147483648 ≤ k) (h2 : k < 2 ^ 32) :
    wrapInt32 (k : Int) = (k : Int) - 2 ^ 32 := by
  unfold wrapInt32
  omega

section EscapeLoop

variable {K : Type} [LinearOrderedField K]

theorem escapeLoop_of_test {re im : K} {M : Nat} {s : LoopState K} (h : loopTest M s) :
    escapeLoop re im M s = escapeLoop re im M (loopBody re im s) := by
  rw [escapeLoop, if_pos h]

theorem escapeLoop_of_not_test {re im : K} {M : Nat} {s : LoopState K} (h : ¬ loopTest M s) :
    escapeLoop re im M s = s := by
  rw [escapeLoop, if_neg h]

/-- After `k` passes from `iteration = 0` the counter holds `k` wrapped into
the 32-bit `int`. -/
theorem loopBody_iterate_iteration (re im : K) (k : Nat) :
    ((loopBody re im)^[k] ⟨0, 0, 0⟩).iteration = wrapInt32 (k : Int) := by
  induction k with
  | zero =>
    rw [Function.iterate_zero_apply]
    show (0 : Int) = wrapInt32 ((0 : Nat) : Int)
    unfold wrapInt32
    omega
  | succ k ih =>
    rw [Function.iterate_succ_apply', loopBody]
    simp only [ih]
    unfold wrapInt32
    omega

/-- The comparison `iteration < MAX_ITER` after `k` passes, for `k` and
`MAX_ITER` below `2 ^ 32`. -/
theorem counterBelow_wrapInt32_natCast {M k : Nat} (hM : M < 2 ^ 32) (hk : k < 2 ^ 32) :
    counterBelow M (wrapInt32 (k : Int)) ↔ k < M := by
  unfold counterBelow
  rw [toUInt32_wrapInt32_natCast hk, Nat.mod_eq_of_lt hM]

/-- The loop makes some number `n` of passes: the test holds before each of
them and fails after the last, and the exit state is the `n`-th iterate of the body. -/
theorem escapeLoop_passes (re im : K) (M : Nat) (s : LoopState K) :
    ∃ n, escapeLoop re im M s = (loopBody re im)^[n] s ∧
      (∀ k, k < n → loopTest M ((loopBody re im)^[k] s)) ∧
      ¬ loopTest M ((loopBody re im)^[n] s) := by
  generalize hd : M % 2 ^ 32 - toUInt32 s.iteration = d
  induction d generalizing s with
  | zero =>
    have hnot : ¬ loopTest M s := fun h => by
      have := h.2
      unfold counterBelow at this
      omega
    exact ⟨0, escapeLoop_of_not_test hnot, fun k hk => absurd hk (Nat.not_lt_zero k), hnot⟩
  | succ d ih =>
    by_cases ht : loopTest M s
    · have hd1 : M % 2 ^ 32 - toUInt32 (loopBody re im s).iteration = d := by
        have hlt := ht.2
        unfold counterBelow at hlt
        simp only [loopBody]
        unfold toUInt32 wrapInt32 at *
        omega
      obtain ⟨n, hn, hbefore, hafter⟩ := ih (loopBody re im s) hd1
      refine ⟨n + 1, ?_, ?_, ?_⟩
      · rw [escapeLoop_of_test ht, hn, Function.iterate_succ_apply]
      · intro k hk
        cases k with
        | zero => exact ht
        | succ j =>
          rw [Function.iterate_succ_apply]
          exact hbefore j (by omega)
      · rw [Function.iterate_succ_apply]
        exact hafter
    · exact ⟨0, escapeLoop_of_not_test ht, fun k hk => absurd hk (Nat.not_lt_zero k), ht⟩

/-- The number of passes is determined by the two conditions of `escapeLoop_passes`. -/
theorem escapeLoop_eq_iterate (re im : K) (M : Nat) (s : LoopState K) (n : Nat)
    (hbefore : ∀ k, k < n → loopTest M ((loopBody re im)^[k] s))
    (hafter : ¬ loopTest M ((loopBody re im)^[n] s)) :
    escapeLoop re im M s = (loopBody re im)^[n] s := by
  obtain ⟨m, hm, hb, ha⟩ := escapeLoop_passes re im M s
  rcases Nat.lt_trichotomy m n with h | h | h
  · exact absurd (hbefore m h) ha
  · rw [hm, h]
  · exact absurd (hb n h) hafter

/-- When the first conjunct of the loop test holds before each of the first
`MAX_ITER` passes, the loop makes exactly `MAX_ITER` passes. -/
theorem escapeLoop_of_bounded (re im : K) (M : Nat) (hM : M < 2 ^ 32)
    (hbounded : ∀ k, k < M →
      ((loopBody re im)^[k] ⟨0, 0, 0⟩).x * ((loopBody re im)^[k] ⟨0, 0, 0⟩).x +
        ((loopBody re im)^[k] ⟨0, 0, 0⟩).y * ((loopBody re im)^[k] ⟨0, 0, 0⟩).y ≤ 4) :
    escapeLoop re im M ⟨0, 0, 0⟩ = (loopBody re im)^[M] ⟨0, 0, 0⟩ := by
  apply escapeLoop_eq_iterate
  · intro k hk
    refine ⟨hbounded k hk, ?_⟩
    rw [loopBody_iterate_iteration, counterBelow_wrapInt32_natCast hM (lt_trans hk hM)]
    exact hk
  · intro h
    have h2 := h.2
    rw [loopBody_iterate_iteration, counterBelow_wrapInt32_natCast hM hM] at h2
    exact lt_irrefl M h2

end EscapeLoop

/-! ## C1: the loop computes the complex orbit -/

/-- A `for` loop with a positive stride ends within `bound - i` passes, and
carries an invariant of its body to the exit. -/
theorem forLoop_invariant {σ : Type} (bound stride : Nat) (body : Nat → σ → Option σ)
    (hs : 0 < stride) (I : Nat → σ → Prop)
    (hbody : ∀ i s, i < bound → I i s → ∃ s1, body i s = some s1 ∧ I (i + stride) s1) :
    ∀ fuel i s, bound ≤ i + fuel → I i s →
      ∃ out j, forLoop bound stride body fuel i s = some out ∧ bound ≤ j ∧ I j out := by
  intro fuel
  induction fuel with
  | zero =>
    intro i s hfuel hI
    refine ⟨s, i, ?_, by omega, hI⟩
    rw [forLoop, if_neg (by omega)]
  | succ fuel ih =>
    intro i s hfuel hI
    by_cases hi : i < bound
    · obtain ⟨s1, hs1, hI1⟩ := hbody i s hi hI
      obtain ⟨out, j, hout, hj, hIj⟩ := ih (i + stride) s1 (by omega) hI1
      refine ⟨out, j, ?_, hj, hIj⟩
      rw [forLoop, if_pos hi, hs1]
      exact hout
    · refine ⟨s, i, ?_, by omega, hI⟩
      rw [forLoop, if_neg hi]

theorem lt_add_stride_iff {stride i b : Nat} (hs : 0 < stride) (hi : stride ∣ i)
    (hb : stride ∣ b) : b < i + stride ↔ b < i ∨ b = i := by
  obtain ⟨m, rfl⟩ := hi
  obtain ⟨q, rfl⟩ := hb
  constructor
  · intro h
    have hq : q < m + 1 := by
      have h1 : stride * q < stride * (m + 1) := by
        rw [Nat.mul_add, Nat.mul_one]
        exact h
      exact Nat.lt_of_mul_lt_mul_left h1
    rcases Nat.lt_or_ge q m with h1 | h1
    · left
      exact Nat.mul_lt_mul_of_pos_left h1 hs
    · right
      have : q = m := by omega
      rw [this]
  · intro h
    omega

section Render

variable {K : Type} [LinearOrderedField K] [FloorRing K]

/-- The inner loop ends; it writes the pixels of column `horizontal` whose row
is a multiple of the stride and leaves every other pixel as it was. -/
theorem renderColumn_spec (log sqrt : K → K) (p : ViewParameters K) (hs : 0 < p.resolution)
    (horizontal : Nat) (img : Image) :
    ∃ out, renderColumn log sqrt p horizontal img = some out ∧
      ∀ (a : Fin IMG_SIZE_X) (b : Fin IMG_SIZE_Y), out a b =
        if a.val = horizontal ∧ p.resolution ∣ b.val then pixelColor log sqrt p horizontal b.val
        else img a b := by
  have h := forLoop_invariant IMG_SIZE_Y p.resolution
    (fun vertical im =>
      some (setPixel im horizontal vertical (pixelColor log sqrt p horizontal vertical)))
    hs
    (fun i im => p.resolution ∣ i ∧ ∀ (a : Fin IMG_SIZE_X) (b : Fin IMG_SIZE_Y), im a b =
        if a.val = horizontal ∧ b.val < i ∧ p.resolution ∣ b.val then
          pixelColor log sqrt p horizontal b.val
        else img a b)
    (by
      rintro i im _ ⟨hdvd, him⟩
      refine ⟨_, rfl, Nat.dvd_add hdvd (Nat.dvd_refl _), ?_⟩
      intro a b
      simp only [setPixel, him]
      by_cases hb : p.resolution ∣ b.val
      · have hiff := lt_add_stride_iff hs hdvd hb
        by_cases ha : a.val = horizontal
        · by_cases hbi : b.val = i
          · simp [ha, hbi, hdvd, hs]
          · simp [ha, hbi, hb, hiff]
        · simp [ha]
      · by_cases hbi : b.val = i
        · exact absurd (hbi ▸ hdvd) hb
        · simp [hb, hbi])
    IMG_SIZE_Y 0 img (by omega) ⟨Nat.dvd_zero _, by simp⟩
  obtain ⟨out, j, hout, hj, _, hspec⟩ := h
  refine ⟨out, hout, ?_⟩
  intro a b
  rw [hspec a b]
  have hb : b.val < j := lt_of_lt_of_le b.isLt hj
  simp [hb]

/-- The render step ends when the stride is positive; it writes the pixels
whose two coordinates are multiples of the stride, each with the colour of the
loop body at that pixel, and leaves every other pixel as it was. -/
theorem render_spec (log sqrt : K → K) (p : ViewParameters K) (hs : 0 < p.resolution)
    (img : Image) :
    ∃ out, render log sqrt p img = some out ∧
      ∀ (a : Fin IMG_SIZE_X) (b : Fin IMG_SIZE_Y), out a b =
        if p.resolution ∣ a.val ∧ p.resolution ∣ b.val then pixelColor log sqrt p a.val b.val
        else img a b := by
  have h := forLoop_invariant IMG_SIZE_X p.resolution
    (fun horizontal im => renderColumn log sqrt p horizontal im)
    hs
    (fun i im => p.resolution ∣ i ∧ ∀ (a : Fin IMG_SIZE_X) (b : Fin IMG_SIZE_Y), im a b =
        if a.val < i ∧ p.resolution ∣ a.val ∧ p.resolution ∣ b.val then
          pixelColor log sqrt p a.val b.val
        else img a b)
    (by
      rintro i im _ ⟨hdvd, him⟩
      obtain ⟨im1, him1, hcol⟩ := renderColumn_spec log sqrt p hs i im
      refine ⟨im1, him1, Nat.dvd_add hdvd (Nat.dvd_refl _), ?_⟩
      intro a b
      rw [hcol a b, him a b]
      by_cases ha : p.resolution ∣ a.val
      · have hiff := lt_add_stride_iff hs hdvd ha
        by_cases hai : a.val = i
        · by_cases hb : p.resolution ∣ b.val
          · simp [hai, hb, hdvd, hs]
          · simp [hai, hb]
        · simp [hai, ha, hiff]
      · by_cases hai : a.val = i
        · exact absurd (hai ▸ hdvd) ha
        · simp [ha, hai])
    IMG_SIZE_X 0 img (by omega) ⟨Nat.dvd_zero _, by simp⟩
  obtain ⟨out, j, hout, hj, _, hspec⟩ := h
  refine ⟨out, hout, ?_⟩
  intro a b
  rw [hspec a b]
  have ha : a.val < j := lt_of_lt_of_le a.isLt hj
  simp [ha]

end Render

/-! ## Pixels whose loop runs to `MAX_ITER` -/

section Pixel

variable {K : Type} [LinearOrderedField K] [FloorRing K]

/-- The conversion `double -> int` at a whole number. -/
theorem truncToInt_intCast_eq (n : Int) : truncToInt ((n : Int) : K) = intOrMin n := by
  have hlo : ((-2147483649 : K) < (n : K)) ↔ -2147483649 < n := by exact_mod_cast Iff.rfl
  have hhi : ((n : K) < 2147483648) ↔ n < 2147483648 := by exact_mod_cast Iff.rfl
  unfold truncToInt intOrMin
  by_cases h : -2147483649 < n ∧ n < 2147483648
  · have h3 : -2147483648 ≤ n ∧ n ≤ 2147483647 := ⟨by omega, by omega⟩
    rw [if_pos ⟨hlo.2 h.1, hhi.2 h.2⟩, if_pos h3]
    by_cases h0 : (0 : K) ≤ (n : K)
    · rw [if_pos h0, Int.floor_intCast]
    · rw [if_neg h0, Int.ceil_intCast]
  · have h2 : ¬ ((-2147483649 : K) < (n : K) ∧ (n : K) < 2147483648) :=
      fun hc => h ⟨hlo.1 hc.1, hhi.1 hc.2⟩
    have h3 : ¬ (-2147483648 ≤ n ∧ n ≤ 2147483647) := fun hc => h ⟨by omega, by omega⟩
    rw [if_neg h2, if_neg h3]

/-- The conversion `double -> int` at a whole number that fits the `int`. -/
theorem truncToInt_intCast (n : Int) (h1 : -2147483648 ≤ n) (h2 : n ≤ 2147483647) :
    truncToInt ((n : Int) : K) = n := by
  rw [truncToInt_intCast_eq, intOrMin, if_pos ⟨h1, h2⟩]

/-- The conversion `double -> int` of a non-negative value below `2 ^ 31` is its
integer part. -/
theorem truncToInt_eq_of_le_of_lt (v : K) (n : Int) (hn0 : 0 ≤ n) (hn1 : n ≤ 2147483646)
    (h1 : (n : K) ≤ v) (h2 : v < (n : K) + 1) : truncToInt v = n := by
  have h0 : (0 : K) ≤ v := le_trans (by exact_mod_cast hn0) h1
  have hnK : (n : K) ≤ 2147483646 := by exact_mod_cast hn1
  unfold truncToInt
  rw [if_pos ⟨by linarith, by linarith⟩, if_pos h0, Int.floor_eq_iff]
  exact ⟨h1, h2⟩

theorem truncToInt_wrapInt32 (i : Int) :
    truncToInt ((wrapInt32 i : Int) : K) = wrapInt32 i :=
  truncToInt_intCast _ (wrapInt32_range i).1 (wrapInt32_range i).2

/-- Called with a counter that made `MAX_ITER` passes, `colorGradient` returns black. -/
theorem colorGradient_wrapInt32_MAX_ITER {M : Nat} (hM : M < 2 ^ 32) :
    colorGradient M ((wrapInt32 (M : Int) : Int) : K) = black := by
  unfold colorGradient
  rw [truncToInt_wrapInt32, toUInt32_wrapInt32_natCast hM, if_pos rfl]
  rfl

theorem pixelIteration_of_iteration_eq (log sqrt : K → K) (p : ViewParameters K)
    (horizontal vertical : Nat) (hM : p.MAX_ITER < 2 ^ 32)
    (h : (pixelLoop p horizontal vertical).iteration = wrapInt32 (p.MAX_ITER : Int)) :
    ¬ counterBelow p.MAX_ITER (pixelLoop p horizontal vertical).iteration ∧
    pixelIteration log sqrt p horizontal vertical = wrapInt32 (p.MAX_ITER : Int) := by
  have hnot : ¬ counterBelow p.MAX_ITER (pixelLoop p horizontal vertical).iteration := by
    rw [h, counterBelow_wrapInt32_natCast hM hM]
    exact lt_irrefl _
  refine ⟨hnot, ?_⟩
  unfold pixelIteration
  simp only [if_neg hnot]
  exact h

theorem pixelColor_of_iteration_eq (log sqrt : K → K) (p : ViewParameters K)
    (horizontal vertical : Nat) (hM : p.MAX_ITER < 2 ^ 32)
    (h : (pixelLoop p horizontal vertical).iteration = wrapInt32 (p.MAX_ITER : Int)) :
    pixelColor log sqrt p horizontal vertical = black := by
  unfold pixelColor
  rw [(pixelIteration_of_iteration_eq log sqrt p horizontal vertical hM h).2]
  exact colorGradient_wrapInt32_MAX_ITER hM

end Pixel

theorem loopBody_iterate_origin {K : Type} [LinearOrderedField K] (k : Nat) :
    (loopBody (0 : K) 0)^[k] ⟨0, 0, 0⟩ = ⟨0, 0, wrapInt32 (k : Int)⟩ := by
  induction k with
  | zero =>
    have h0 : wrapInt32 (0 : Int) = 0 := by
      unfold wrapInt32
      omega
    simp [h0]
  | succ k ih =>
    have hw : wrapInt32 (wrapInt32 (k : Int) + 1) = wrapInt32 ((k + 1 : Nat) : Int) := by
      unfold wrapInt32
      omega
    rw [Function.iterate_succ_apply', ih]
    simp [loopBody, hw]

/-- The centre pixel with both offsets 0: the loop makes `MAX_ITER` passes at
the point `(0, 0)`. -/
theorem pixelLoop_centre {K : Type} [LinearOrderedField K] (p : ViewParameters K)
    (hx : p.offsetX = 0) (hy : p.offsetY = 0) (hM : p.MAX_ITER < 2 ^ 32) :
    pixelReal p 960 = 0 ∧ pixelImag p 540 = 0 ∧
    pixelLoop p 960 540 = ⟨0, 0, wrapInt32 (p.MAX_ITER : Int)⟩ := by
  have hre : pixelReal p 960 = 0 := by
    rw [pixelReal, hx]
    norm_num [IMG_SIZE_X]
  have him : pixelImag p 540 = 0 := by
    rw [pixelImag, hy]
    norm_num [IMG_SIZE_Y]
  refine ⟨hre, him, ?_⟩
  unfold pixelLoop
  rw [hre, him, escapeLoop_of_bounded _ _ _ hM, loopBody_iterate_origin]
  intro k _
  rw [loopBody_iterate_origin]
  norm_num

/-! ## C2: pixels that never escape are black -/

/-- C2 as amended. For every view-parameter state (with `MAX_ITER` an unsigned
32-bit value) and every pixel: if `x*x + y*y <= 4` holds before each of the
first `MAX_ITER` passes of the loop, the loop exits after `MAX_ITER` passes, the
smoothing branch `iteration < MAX_ITER` is not taken, the colour written is
`sf::Color(0, 0, 0)`, and a render whose stride divides both coordinates leaves
that colour at the pixel.  When `MAX_ITER ≤ 2147483647` the counter is
`MAX_ITER` and `colorGradient` is called with `MAX_ITER`; when
`MAX_ITER ≥ 2147483648` the `int` counter has wrapped around and `colorGradient`
is called with `MAX_ITER - 2 ^ 32`. -/
theorem nonescaping_pixel_is_black {K : Type} [LinearOrderedField K] [FloorRing K]
    (log sqrt : K → K) (p : ViewParameters K) (horizontal vertical : Nat)
    (hM : p.MAX_ITER < 2 ^ 32)
    (hbounded : ∀ k, k < p.MAX_ITER →
      ((loopBody (pixelReal p horizontal) (pixelImag p vertical))^[k] ⟨0, 0, 0⟩).x *
          ((loopBody (pixelReal p horizontal) (pixelImag p vertical))^[k] ⟨0, 0, 0⟩).x +
        ((loopBody (pixelReal p horizontal) (pixelImag p vertical))^[k] ⟨0, 0, 0⟩).y *
          ((loopBody (pixelReal p horizontal) (pixelImag p vertical))^[k] ⟨0, 0, 0⟩).y ≤ 4) :
    pixelLoop p horizontal vertical =
      (loopBody (pixelReal p horizontal) (pixelImag p vertical))^[p.MAX_ITER] ⟨0, 0, 0⟩ ∧
    ¬ counterBelow p.MAX_ITER (pixelLoop p horizontal vertical).iteration ∧
    (p.MAX_ITER ≤ 2147483647 →
      (pixelLoop p horizontal vertical).iteration = (p.MAX_ITER : Int) ∧
      pixelIteration log sqrt p horizontal vertical = (p.MAX_ITER : Int)) ∧
    (2147483648 ≤ p.MAX_ITER →
      (pixelLoop p horizontal vertical).iteration = (p.MAX_ITER : Int) - 2 ^ 32 ∧
      pixelIteration log sqrt p horizontal vertical = (p.MAX_ITER : Int) - 2 ^ 32) ∧
    pixelColor log sqrt p horizontal vertical = black ∧
    black = { r := 0, g := 0, b := 0, a := 255 } ∧
    ∀ (img : Image) (hh : horizontal < IMG_SIZE_X) (hv : vertical < IMG_SIZE_Y),
      0 < p.resolution → p.resolution ∣ horizontal → p.resolution ∣ vertical →
      ∃ out, render log sqrt p img = some out ∧ out ⟨horizontal, hh⟩ ⟨vertical, hv⟩ = black := by
  have hloop : pixelLoop p horizontal vertical =
      (loopBody (pixelReal p horizontal) (pixelImag p vertical))^[p.MAX_ITER] ⟨0, 0, 0⟩ := by
    unfold pixelLoop
    rw [escapeLoop_of_bounded _ _ _ hM hbounded]
  have hit : (pixelLoop p horizontal vertical).iteration = wrapInt32 (p.MAX_ITER : Int) := by
    rw [hloop, loopBody_iterate_iteration]
  have hpi := pixelIteration_of_iteration_eq log sqrt p horizontal vertical hM hit
  have hcol := pixelColor_of_iteration_eq log sqrt p horizontal vertical hM hit
  refine ⟨hloop, hpi.1, ?_, ?_, hcol, rfl, ?_⟩
  · intro hsmall
    have hw : wrapInt32 (p.MAX_ITER : Int) = (p.MAX_ITER : Int) :=
      wrapInt32_of_fits (by omega) (by omega)
    rw [hpi.2, hit, hw]
    exact ⟨rfl, rfl⟩
  · intro hlarge
    have hw := wrapInt32_natCast_of_ge hlarge hM
    rw [hpi.2, hit, hw]
    exact ⟨rfl, rfl⟩
  · intro img hh hv hs hdh hdv
    obtain ⟨out, hout, hspec⟩ := render_spec log sqrt p hs img
    refine ⟨out, hout, ?_⟩
    rw [hspec, if_pos ⟨hdh, hdv⟩]
    exact hcol

/-- Witness for C2 as amended: pixel (900, 540) at the defaults with
`MAX_ITER = 2`, whose first two iterates are `(0, 0)` and `(-0.24, 0)`. -/
theorem nonescaping_pixel_is_black_witness :
    pixelIteration Real.log Real.sqrt
      ({ (defaults : ViewParameters ℝ) with MAX_ITER := 2 }) 900 540 = 2 ∧
    pixelColor Real.log Real.sqrt
      ({ (defaults : ViewParameters ℝ) with MAX_ITER := 2 }) 900 540 = black :=
  have h := nonescaping_pixel_is_black Real.log Real.sqrt
    ({ (defaults : ViewParameters ℝ) with MAX_ITER := 2 }) 900 540 (by norm_num)
    (by
      intro k hk
      have hk2 : k < 2 := hk
      interval_cases k
      · norm_num [defaults]
      · norm_num [defaults, loopBody, pixelReal, pixelImag, IMG_SIZE_X, IMG_SIZE_Y])
  ⟨(h.2.2.1 (by norm_num)).2, h.2.2.2.2.1⟩

/-- Counterexample to C2 as stated: with `MAX_ITER = 4294967286` (the value
thirteen decrease-detail presses reach from the initial state) and the other
parameters at their defaults, the centre pixel (960, 540) never fails the escape
test, yet `colorGradient` is called with `-10`, not with `MAX_ITER`. -/
theorem nonescaping_pixel_passes_wrapped_counter :
    pollEvents (initialState : AppState ℝ) (List.replicate 13 (Event.KeyPressed Key.Left)) =
      some { params := { (defaults : ViewParameters ℝ) with MAX_ITER := 4294967286 },
             render := true } ∧
    (∀ k : Nat,
      ((loopBody
          (pixelReal ({ (defaults : ViewParameters ℝ) with MAX_ITER := 4294967286 }) 960)
          (pixelImag ({ (defaults : ViewParameters ℝ) with MAX_ITER := 4294967286 }) 540))^[k]
          ⟨0, 0, 0⟩).x *
        ((loopBody
          (pixelReal ({ (defaults : ViewParameters ℝ) with MAX_ITER := 4294967286 }) 960)
          (pixelImag ({ (defaults : ViewParameters ℝ) with MAX_ITER := 4294967286 }) 540))^[k]
          ⟨0, 0, 0⟩).x +
      ((loopBody
          (pixelReal ({ (defaults : ViewParameters ℝ) with MAX_ITER := 4294967286 }) 960)
          (pixelImag ({ (defaults : ViewParameters ℝ) with MAX_ITER := 4294967286 }) 540))^[k]
          ⟨0, 0, 0⟩).y *
        ((loopBody
          (pixelReal ({ (defaults : ViewParameters ℝ) with MAX_ITER := 4294967286 }) 960)
          (pixelImag ({ (defaults : ViewParameters ℝ) with MAX_ITER := 4294967286 }) 540))^[k]
          ⟨0, 0, 0⟩).y ≤ 4) ∧
    pixelIteration Real.log Real.sqrt
      ({ (defaults : ViewParameters ℝ) with MAX_ITER := 4294967286 }) 960 540 = -10 ∧
    (-10 : Int) ≠ ((4294967286 : Nat) : Int) := by
  have hM : ({ (defaults : ViewParameters ℝ) with MAX_ITER := 4294967286 }).MAX_ITER < 2 ^ 32 := by
    show 4294967286 < 2 ^ 32
    norm_num
  obtain ⟨hre, him, hloop⟩ := pixelLoop_centre
    ({ (defaults : ViewParameters ℝ) with MAX_ITER := 4294967286 })
    (by norm_num [defaults]) (by norm_num [defaults]) hM
  have hit : (pixelLoop ({ (defaults : ViewParameters ℝ) with MAX_ITER := 4294967286 })
      960 540).iteration = wrapInt32 ((4294967286 : Nat) : Int) := by
    rw [hloop]
  have hpi := (pixelIteration_of_iteration_eq Real.log Real.sqrt
    ({ (defaults : ViewParameters ℝ) with MAX_ITER := 4294967286 }) 960 540 hM hit).2
  refine ⟨?_, ?_, ?_, by omega⟩
  · simp [pollEvents, handleEvent, keyPressed, initialState, defaults, List.replicate,
      toUInt32]
  · intro k
    rw [hre, him, loopBody_iterate_origin]
    norm_num
  · rw [hpi]
    show wrapInt32 ((4294967286 : Nat) : Int) = -10
    unfold wrapInt32
    omega

/-! ## C3: the image centre -/

/-- C3 as amended. Over exact arithmetic, with `offsetX = offsetY = 0`, for
every `zoomDepth` and every `MAX_ITER` (an unsigned 32-bit value): pixel
(960, 540) maps to the point `re = 0`, `im = 0`; after any number of passes of
the loop body `x = y = 0`, so the escape test never fails; the loop makes
`MAX_ITER` passes; the pixel colour is `sf::Color(0, 0, 0)`, and a render whose
stride divides 960 and 540 (such as stride 1) leaves that colour at the pixel.
When `MAX_ITER ≤ 2147483647` (in particular at the default 120) the counter
reaches `MAX_ITER`; when `MAX_ITER ≥ 2147483648` the `int` counter wraps around
and ends at `MAX_ITER - 2 ^ 32`. -/
theorem centre_pixel_is_black {K : Type} [LinearOrderedField K] [FloorRing K]
    (log sqrt : K → K) (p : ViewParameters K) (hx : p.offsetX = 0) (hy : p.offsetY = 0)
    (hM : p.MAX_ITER < 2 ^ 32) :
    pixelReal p 960 = 0 ∧ pixelImag p 540 = 0 ∧
    (∀ k : Nat, ((loopBody (pixelReal p 960) (pixelImag p 540))^[k] ⟨0, 0, 0⟩).x = 0 ∧
      ((loopBody (pixelReal p 960) (pixelImag p 540))^[k] ⟨0, 0, 0⟩).y = 0) ∧
    (∀ k : Nat, ((loopBody (pixelReal p 960) (pixelImag p 540))^[k] ⟨0, 0, 0⟩).x *
          ((loopBody (pixelReal p 960) (pixelImag p 540))^[k] ⟨0, 0, 0⟩).x +
        ((loopBody (pixelReal p 960) (pixelImag p 540))^[k] ⟨0, 0, 0⟩).y *
          ((loopBody (pixelReal p 960) (pixelImag p 540))^[k] ⟨0, 0, 0⟩).y ≤ 4) ∧
    pixelLoop p 960 540 =
      (loopBody (pixelReal p 960) (pixelImag p 540))^[p.MAX_ITER] ⟨0, 0, 0⟩ ∧
    (p.MAX_ITER ≤ 2147483647 →
      pixelLoop p 960 540 = ⟨0, 0, (p.MAX_ITER : Int)⟩ ∧
      pixelIteration log sqrt p 960 540 = (p.MAX_ITER : Int)) ∧
    (2147483648 ≤ p.MAX_ITER →
      pixelLoop p 960 540 = ⟨0, 0, (p.MAX_ITER : Int) - 2 ^ 32⟩ ∧
      pixelIteration log sqrt p 960 540 = (p.MAX_ITER : Int) - 2 ^ 32) ∧
    pixelColor log sqrt p 960 540 = black ∧
    ∀ (img : Image), 0 < p.resolution → p.resolution ∣ 960 → p.resolution ∣ 540 →
      ∃ out, render log sqrt p img = some out ∧
        out ⟨960, by decide⟩ ⟨540, by decide⟩ = black := by
  obtain ⟨hre, him, hloop⟩ := pixelLoop_centre p hx hy hM
  have hit : (pixelLoop p 960 540).iteration = wrapInt32 (p.MAX_ITER : Int) := by rw [hloop]
  have hpi := (pixelIteration_of_iteration_eq log sqrt p 960 540 hM hit).2
  have hcol := pixelColor_of_iteration_eq log sqrt p 960 540 hM hit
  rw [hre, him]
  refine ⟨rfl, rfl, ?_, ?_, ?_, ?_, ?_, hcol, ?_⟩
  · intro k
    rw [loopBody_iterate_origin]
    exact ⟨rfl, rfl⟩
  · intro k
    rw [loopBody_iterate_origin]
    norm_num
  · rw [hloop, loopBody_iterate_origin]
  · intro hsmall
    have hw : wrapInt32 (p.MAX_ITER : Int) = (p.MAX_ITER : Int) :=
      wrapInt32_of_fits (by omega) (by omega)
    rw [hpi, hloop, hw]
    exact ⟨rfl, rfl⟩
  · intro hlarge
    have hw := wrapInt32_natCast_of_ge hlarge hM
    rw [hpi, hloop, hw]
    exact ⟨rfl, rfl⟩
  · intro img hs h1 h2
    obtain ⟨out, hout, hspec⟩ := render_spec log sqrt p hs img
    refine ⟨out, hout, ?_⟩
    rw [hspec, if_pos ⟨h1, h2⟩]
    exact hcol

/-- Witness for C3 as amended: the default view parameters over the real
numbers. -/
theorem centre_pixel_is_black_witness :
    pixelLoop (defaults : ViewParameters ℝ) 960 540 = ⟨0, 0, 120⟩ ∧
    pixelColor Real.log Real.sqrt (defaults : ViewParameters ℝ) 960 540 = black :=
  have h := centre_pixel_is_black Real.log Real.sqrt (defaults : ViewParameters ℝ)
    (by norm_num [defaults]) (by norm_num [defaults]) (by norm_num [defaults])
  ⟨(h.2.2.2.2.2.1 (by norm_num [defaults])).1, h.2.2.2.2.2.2.2.1⟩

/-- Counterexample to C3 as stated: with both offsets 0, `zoomDepth = 0.004`
and `MAX_ITER = 4294967286 ≥ 1`, the counter of the centre pixel does not reach
`MAX_ITER`: the loop exits with the `int` counter at `-10`. -/
theorem centre_pixel_counter_wraps :
    ({ (defaults : ViewParameters ℝ) with MAX_ITER := 4294967286 }).offsetX = 0 ∧
    ({ (defaults : ViewParameters ℝ) with MAX_ITER := 4294967286 }).offsetY = 0 ∧
    1 ≤ ({ (defaults : ViewParameters ℝ) with MAX_ITER := 4294967286 }).MAX_ITER ∧
    pixelLoop ({ (defaults : ViewParameters ℝ) with MAX_ITER := 4294967286 }) 960 540 =
      ⟨0, 0, -10⟩ ∧
    (pixelLoop ({ (defaults : ViewParameters ℝ) with MAX_ITER := 4294967286 })
      960 540).iteration ≠
      ((({ (defaults : ViewParameters ℝ) with MAX_ITER := 4294967286 }).MAX_ITER : Nat) : Int) := by
  have hM : ({ (defaults : ViewParameters ℝ) with MAX_ITER := 4294967286 }).MAX_ITER < 2 ^ 32 := by
    show 4294967286 < 2 ^ 32
    norm_num
  have hx : ({ (defaults : ViewParameters ℝ) with MAX_ITER := 4294967286 }).offsetX = 0 := by
    norm_num [defaults]
  have hy : ({ (defaults : ViewParameters ℝ) with MAX_ITER := 4294967286 }).offsetY = 0 := by
    norm_num [defaults]
  obtain ⟨_, _, hloop⟩ := pixelLoop_centre
    ({ (defaults : ViewParameters ℝ) with MAX_ITER := 4294967286 }) hx hy hM
  have hw : wrapInt32 ((4294967286 : Nat) : Int) = -10 := by
    unfold wrapInt32
    omega
  have hloop2 : pixelLoop ({ (defaults : ViewParameters ℝ) with MAX_ITER := 4294967286 })
      960 540 = ⟨0, 0, -10⟩ := by
    rw [hloop]
    show (⟨0, 0, wrapInt32 ((4294967286 : Nat) : Int)⟩ : LoopState ℝ) = ⟨0, 0, -10⟩
    rw [hw]
  refine ⟨hx, hy, ?_, hloop2, ?_⟩
  · show 1 ≤ 4294967286
    norm_num
  · rw [hloop2]
    show (-10 : Int) ≠ ((4294967286 : Nat) : Int)
    omega

/-! ## C4: the smoothed count is stored in an `int` -/

theorem pixelLoop_defaults_corner :
    pixelLoop (defaults : ViewParameters ℝ) 0 0 = ⟨-3.84, -2.16, 1⟩ := by
  have hre : pixelReal (defaults : ViewParameters ℝ) 0 = -3.84 := by
    norm_num [pixelReal, defaults, IMG_SIZE_X]
  have him : pixelImag (defaults : ViewParameters ℝ) 0 = -2.16 := by
    norm_num [pixelImag, defaults, IMG_SIZE_Y]
  have hM : (defaults : ViewParameters ℝ).MAX_ITER = 120 := rfl
  unfold pixelLoop
  rw [hre, him, hM, escapeLoop_of_test, escapeLoop_of_not_test]
  · norm_num [loopBody, wrapInt32]
  · norm_num [loopBody, loopTest]
  · norm_num [loopTest, counterBelow, toUInt32]

theorem smoothExpr_defaults_corner_bounds :
    1 < smoothExpr Real.log Real.sqrt (⟨-3.84, -2.16, 1⟩ : LoopState ℝ) ∧
    smoothExpr Real.log Real.sqrt (⟨-3.84, -2.16, 1⟩ : LoopState ℝ) < 2 := by
  have hlog2 : 0 < Real.log 2 := Real.log_pos (by norm_num)
  have hhalf : Real.log 0.5 = - Real.log 2 := by
    rw [show (0.5 : ℝ) = 2⁻¹ by norm_num, Real.log_inv]
  have hv : ((-3.84 : ℝ) * (-3.84) + (-2.16) * (-2.16)) = 19.4112 := by norm_num
  have hsqrt_lo : (2.72 : ℝ) < Real.sqrt 19.4112 := by
    rw [Real.lt_sqrt (by norm_num)]
    norm_num
  have hsqrt_hi : Real.sqrt 19.4112 < 5 := by
    rw [Real.sqrt_lt' (by norm_num)]
    norm_num
  have he_hi : Real.exp 1 < 2.72 := lt_trans Real.exp_one_lt_d9 (by norm_num)
  have he_lo : (2.7 : ℝ) < Real.exp 1 := lt_trans (by norm_num) Real.exp_one_gt_d9
  have hexp2 : (5 : ℝ) < Real.exp 2 := by
    have h2 : Real.exp 2 = Real.exp 1 * Real.exp 1 := by
      rw [← Real.exp_add]
      norm_num
    rw [h2]
    nlinarith
  have hspos : (0 : ℝ) < Real.sqrt 19.4112 := lt_trans (by norm_num) hsqrt_lo
  have hL_lo : 1 < Real.log (Real.sqrt 19.4112) := by
    rw [Real.lt_log_iff_exp_lt hspos]
    exact lt_trans he_hi hsqrt_lo
  have hL_hi : Real.log (Real.sqrt 19.4112) < 2 := by
    rw [Real.log_lt_iff_lt_exp hspos]
    exact lt_trans hsqrt_hi hexp2
  have hLL_lo : 0 < Real.log (Real.log (Real.sqrt 19.4112)) := Real.log_pos hL_lo
  have hLL_hi : Real.log (Real.log (Real.sqrt 19.4112)) < Real.log 2 :=
    Real.log_lt_log (by linarith) hL_hi
  have hq_lo : 0 < Real.log (Real.log (Real.sqrt 19.4112)) / Real.log 2 := div_pos hLL_lo hlog2
  have hq_hi : Real.log (Real.log (Real.sqrt 19.4112)) / Real.log 2 < 1 := by
    rw [div_lt_one hlog2]
    exact hLL_hi
  have hval : smoothExpr Real.log Real.sqrt (⟨-3.84, -2.16, 1⟩ : LoopState ℝ) =
      2 - Real.log (Real.log (Real.sqrt 19.4112)) / Real.log 2 := by
    simp only [smoothExpr, hv, hhalf]
    have h20 : (2.0 : ℝ) = 2 := by norm_num
    have h10 : (1.0 : ℝ) = 1 := by norm_num
    have h1 : Real.log 2 * (1 / Real.log 2) = 1 := mul_one_div_cancel hlog2.ne'
    rw [h20, h10, div_eq_mul_one_div (Real.log (Real.log (Real.sqrt 19.4112)))]
    push_cast
    linear_combination h1
  rw [hval]
  constructor <;> linarith

theorem pixelIteration_defaults_corner :
    pixelIteration Real.log Real.sqrt (defaults : ViewParameters ℝ) 0 0 = 1 := by
  have hb := smoothExpr_defaults_corner_bounds
  have hM : (defaults : ViewParameters ℝ).MAX_ITER = 120 := rfl
  have hc : counterBelow 120 1 := by
    unfold counterBelow toUInt32
    omega
  unfold pixelIteration
  simp only [pixelLoop_defaults_corner]
  rw [hM, if_pos hc]
  apply truncToInt_eq_of_le_of_lt _ 1 (by norm_num) (by norm_num)
  · exact_mod_cast hb.1.le
  · have := hb.2
    norm_num
    linarith

/-- C4, evaluated at the default view parameters and pixel (0, 0) over the real
numbers: the loop exits after one pass with `x = -3.84`, `y = -2.16`; the
smoothing expression of line 127 lies strictly between 1 and 2; the `int`
variable `iteration` passed to `colorGradient` holds 1, which differs from the
smoothing expression. -/
theorem smoothed_count_is_truncated :
    pixelLoop (defaults : ViewParameters ℝ) 0 0 = ⟨-3.84, -2.16, 1⟩ ∧
    1 < smoothExpr Real.log Real.sqrt (pixelLoop (defaults : ViewParameters ℝ) 0 0) ∧
    smoothExpr Real.log Real.sqrt (pixelLoop (defaults : ViewParameters ℝ) 0 0) < 2 ∧
    pixelIteration Real.log Real.sqrt (defaults : ViewParameters ℝ) 0 0 = 1 ∧
    ((pixelIteration Real.log Real.sqrt (defaults : ViewParameters ℝ) 0 0 : Int) : ℝ) ≠
      smoothExpr Real.log Real.sqrt (pixelLoop (defaults : ViewParameters ℝ) 0 0) := by
  have hb := smoothExpr_defaults_corner_bounds
  have hit := pixelIteration_defaults_corner
  rw [hit, pixelLoop_defaults_corner]
  refine ⟨rfl, hb.1, hb.2, rfl, ?_⟩
  have := hb.1
  intro h
  rw [← h] at this
  norm_num at this

/-! ## C5: the smoothing expression and the smooth count of the specification -/

theorem one_lt_one_sub_logb_log_two : 1 < 1 - Real.logb 2 (Real.log 2) := by
  have hlog2 : 0 < Real.log 2 := Real.log_pos (by norm_num)
  have hlt : Real.log 2 < 1 := lt_trans Real.log_two_lt_d9 (by norm_num)
  have hneg : Real.logb 2 (Real.log 2) < 0 :=
    Real.logb_neg (by norm_num) hlog2 hlt
  linarith

theorem smoothExpr_eq_add_one_sub (n : Int) (x y : ℝ) :
    smoothExpr Real.log Real.sqrt ⟨x, y, n⟩ =
      (n : ℝ) + 1 - Real.logb 2 (Real.log (Real.sqrt (x * x + y * y))) := by
  have hlog2 : 0 < Real.log 2 := Real.log_pos (by norm_num)
  have hhalf : Real.log 0.5 = - Real.log 2 := by
    rw [show (0.5 : ℝ) = 2⁻¹ by norm_num, Real.log_inv]
  have h20 : (2.0 : ℝ) = 2 := by norm_num
  have h10 : (1.0 : ℝ) = 1 := by norm_num
  have h1 : Real.log 2 * (1 / Real.log 2) = 1 := mul_one_div_cancel hlog2.ne'
  simp only [smoothExpr, hhalf, h20, h10, Real.logb]
  rw [div_eq_mul_one_div (Real.log (Real.log (Real.sqrt (x * x + y * y))))]
  linear_combination h1

theorem smoothExpr_eq_specSmoothIter_add (n : Int) (x y : ℝ)
    (hr : 1 < Real.sqrt (x * x + y * y)) :
    smoothExpr Real.log Real.sqrt ⟨x, y, n⟩ =
      specSmoothIter (Real.logb 2) Real.sqrt (n : Int) x y + (1 - Real.logb 2 (Real.log 2)) := by
  have hlog2 : 0 < Real.log 2 := Real.log_pos (by norm_num)
  have hlogr : 0 < Real.log (Real.sqrt (x * x + y * y)) := Real.log_pos hr
  rw [smoothExpr_eq_add_one_sub]
  simp only [specSmoothIter]
  have h22 : Real.logb 2 2 = 1 := Real.logb_self_eq_one (by norm_num)
  have hsplit : Real.logb 2 (Real.logb 2 (Real.sqrt (x * x + y * y))) =
      Real.logb 2 (Real.log (Real.sqrt (x * x + y * y))) - Real.logb 2 (Real.log 2) := by
    rw [show Real.logb 2 (Real.sqrt (x * x + y * y)) =
      Real.log (Real.sqrt (x * x + y * y)) / Real.log 2 from rfl,
      Real.logb_div hlogr.ne' hlog2.ne']
  rw [h22, Real.logb_one, hsplit]
  ring

/-- C5 as amended. Over the real numbers, for every integer count `n` and
every escape radius `r = sqrt(x*x + y*y) > 2`, the expression of line 127,
`n - log(0.5)/log(2) - log(log(r))/log(2)`, equals `n + 1 - log2(ln r)`, and this
is the smooth count of the specification `n - log2(log2 r) + log2(log2 2)` plus
the constant `1 - log2(ln 2)`, which is greater than 1. -/
theorem smoothExpr_vs_specSmoothIter (n : Int) (x y : ℝ)
    (hr : 2 < Real.sqrt (x * x + y * y)) :
    smoothExpr Real.log Real.sqrt ⟨x, y, n⟩ =
      (n : ℝ) + 1 - Real.logb 2 (Real.log (Real.sqrt (x * x + y * y))) ∧
    smoothExpr Real.log Real.sqrt ⟨x, y, n⟩ =
      specSmoothIter (Real.logb 2) Real.sqrt (n : Int) x y + (1 - Real.logb 2 (Real.log 2)) ∧
    1 < 1 - Real.logb 2 (Real.log 2) :=
  ⟨smoothExpr_eq_add_one_sub n x y,
    smoothExpr_eq_specSmoothIter_add n x y (lt_trans (by norm_num) hr),
    one_lt_one_sub_logb_log_two⟩

/-- Witness for C5 as amended: count 3 at the point `x = 3`, `y = 0`. -/
theorem smoothExpr_vs_specSmoothIter_witness :
    smoothExpr Real.log Real.sqrt ⟨3, 0, 3⟩ =
      specSmoothIter (Real.logb 2) Real.sqrt 3 3 0 + (1 - Real.logb 2 (Real.log 2)) :=
  (smoothExpr_vs_specSmoothIter 3 3 0 (by
    rw [Real.lt_sqrt (by norm_num)]
    norm_num)).2.1

/-- Counterexample to C5 as stated: at the exit state of pixel (0, 0) under the
default parameters (`n = 1`, `x = -3.84`, `y = -2.16`, radius above 2) the
expression of line 127 differs from the smooth count of the specification. -/
theorem smoothExpr_ne_specSmoothIter :
    2 < Real.sqrt ((-3.84 : ℝ) * (-3.84) + (-2.16) * (-2.16)) ∧
    smoothExpr Real.log Real.sqrt ⟨-3.84, -2.16, 1⟩ ≠
      specSmoothIter (Real.logb 2) Real.sqrt 1 (-3.84) (-2.16) := by
  have hr : 2 < Real.sqrt ((-3.84 : ℝ) * (-3.84) + (-2.16) * (-2.16)) := by
    rw [Real.lt_sqrt (by norm_num)]
    norm_num
  refine ⟨hr, ?_⟩
  have h := smoothExpr_eq_specSmoothIter_add 1 (-3.84) (-2.16) (lt_trans (by norm_num) hr)
  have hc := one_lt_one_sub_logb_log_two
  intro heq
  rw [heq] at h
  linarith

/-! ## C6: what a render recomputes -/

/-- C6 as amended. For every view-parameter state with a stride of at least 1
and any two previous image contents, the render ends; the pixels whose two
coordinates are multiples of the stride are recomputed from the view parameters
alone, every other pixel keeps the contents it had before the render; with
stride 1 the two rasters are identical. -/
theorem render_recomputes_sampled_pixels {K : Type} [LinearOrderedField K] [FloorRing K]
    (log sqrt : K → K) (p : ViewParameters K) (hs : 1 ≤ p.resolution) (img1 img2 : Image) :
    ∃ out1 out2, render log sqrt p img1 = some out1 ∧ render log sqrt p img2 = some out2 ∧
      (∀ (a : Fin IMG_SIZE_X) (b : Fin IMG_SIZE_Y),
        p.resolution ∣ a.val → p.resolution ∣ b.val →
          out1 a b = pixelColor log sqrt p a.val b.val ∧
          out2 a b = pixelColor log sqrt p a.val b.val) ∧
      (∀ (a : Fin IMG_SIZE_X) (b : Fin IMG_SIZE_Y),
        ¬ (p.resolution ∣ a.val ∧ p.resolution ∣ b.val) →
          out1 a b = img1 a b ∧ out2 a b = img2 a b) ∧
      (p.resolution = 1 → out1 = out2) := by
  obtain ⟨out1, h1, hspec1⟩ := render_spec log sqrt p hs img1
  obtain ⟨out2, h2, hspec2⟩ := render_spec log sqrt p hs img2
  refine ⟨out1, out2, h1, h2, ?_, ?_, ?_⟩
  · intro a b ha hb
    exact ⟨by rw [hspec1, if_pos ⟨ha, hb⟩], by rw [hspec2, if_pos ⟨ha, hb⟩]⟩
  · intro a b hnot
    exact ⟨by rw [hspec1, if_neg hnot], by rw [hspec2, if_neg hnot]⟩
  · intro hone
    funext a b
    rw [hspec1, hspec2, hone, if_pos ⟨Nat.one_dvd _, Nat.one_dvd _⟩,
      if_pos ⟨Nat.one_dvd _, Nat.one_dvd _⟩]

/-- Witness for C6 as amended: the default parameters over the real numbers,
rendered over an all-black and over an all-white image. -/
theorem render_recomputes_sampled_pixels_witness :
    ∃ out1 out2,
      render Real.log Real.sqrt (defaults : ViewParameters ℝ) (fun _ _ => black) = some out1 ∧
      render Real.log Real.sqrt (defaults : ViewParameters ℝ)
        (fun _ _ => sfColor 255 255 255) = some out2 ∧
      out1 = out2 := by
  obtain ⟨out1, out2, h1, h2, _, _, h⟩ :=
    render_recomputes_sampled_pixels Real.log Real.sqrt (defaults : ViewParameters ℝ)
      (le_refl 1) (fun _ _ => black) (fun _ _ => sfColor 255 255 255)
  exact ⟨out1, out2, h1, h2, h rfl⟩

/-- Counterexample to C6 as stated: with stride 2 (and the other parameters at
their defaults) pixel (1, 0) is not written, so a render over an all-black image
and a render over an all-white image with the same parameters differ there. -/
theorem render_stride_two_depends_on_previous_image :
    ∃ out1 out2,
      render Real.log Real.sqrt ({ (defaults : ViewParameters ℝ) with resolution := 2 })
        (fun _ _ => black) = some out1 ∧
      render Real.log Real.sqrt ({ (defaults : ViewParameters ℝ) with resolution := 2 })
        (fun _ _ => sfColor 255 255 255) = some out2 ∧
      out1 ⟨1, by decide⟩ ⟨0, by decide⟩ = black ∧
      out2 ⟨1, by decide⟩ ⟨0, by decide⟩ = sfColor 255 255 255 ∧
      out1 ≠ out2 := by
  obtain ⟨out1, h1, hspec1⟩ := render_spec Real.log Real.sqrt
    ({ (defaults : ViewParameters ℝ) with resolution := 2 }) (by decide) (fun _ _ => black)
  obtain ⟨out2, h2, hspec2⟩ := render_spec Real.log Real.sqrt
    ({ (defaults : ViewParameters ℝ) with resolution := 2 }) (by decide)
    (fun _ _ => sfColor 255 255 255)
  have e1 : out1 ⟨1, by decide⟩ ⟨0, by decide⟩ = black := by
    rw [hspec1, if_neg]
    intro h
    exact absurd h.1 (by decide)
  have e2 : out2 ⟨1, by decide⟩ ⟨0, by decide⟩ = sfColor 255 255 255 := by
    rw [hspec2, if_neg]
    intro h
    exact absurd h.1 (by decide)
  refine ⟨out1, out2, h1, h2, e1, e2, ?_⟩
  intro heq
  rw [heq, e2] at e1
  exact absurd e1 (by decide)

/-! ## C7: the redraw flag after a batch of events -/

/-- C7, evaluated at a batch holding a zoom-in key press followed by the press
of a key the `switch` does not handle (no close event, no Escape): from every
state, the batch multiplies `zoomDepth` by 0.9 and leaves `render = false`, and
the frame ends without a render step, the image being the one from before. -/
theorem unhandled_key_cancels_redraw {K : Type} [LinearOrderedField K] [FloorRing K]
    (log sqrt : K → K) (st : AppState K) (img : Image) :
    pollEvents st [Event.KeyPressed Key.Equal, Event.KeyPressed Key.Other] =
      some { params := { st.params with zoomDepth := st.params.zoomDepth * 0.9 },
             render := false } ∧
    frame log sqrt st img [Event.KeyPressed Key.Equal, Event.KeyPressed Key.Other] =
      some ({ params := { st.params with zoomDepth := st.params.zoomDepth * 0.9 },
              render := false }, img) := by
  have hp : pollEvents st [Event.KeyPressed Key.Equal, Event.KeyPressed Key.Other] =
      some { params := { st.params with zoomDepth := st.params.zoomDepth * 0.9 },
             render := false } := by
    simp only [pollEvents, handleEvent, keyPressed, Option.some_bind]
  refine ⟨hp, ?_⟩
  unfold frame
  rw [hp]
  simp only [Option.some_bind, Bool.false_eq_true, if_false]

/-! ## C8: invariants of the reachable states -/

theorem paramsInv_defaults {K : Type} [LinearOrderedField K] :
    ParamsInv (defaults : ViewParameters K) := by
  refine ⟨rfl, ?_, ?_⟩
  · norm_num [defaults]
  · norm_num [defaults]

theorem paramsInv_keyPressed {K : Type} [LinearOrderedField K] (p : ViewParameters K)
    (st1 : AppState K) (code : Key) (h : ParamsInv p) (hstep : keyPressed p code = some st1) :
    ParamsInv st1.params := by
  obtain ⟨hres, hz, hM⟩ := h
  have h9 : (0 : K) < 0.9 := by norm_num
  have h4 : (0 : K) < 0.004 := by norm_num
  have hmod : ∀ i : Int, toUInt32 i < 2 ^ 32 := fun i => by
    unfold toUInt32
    omega
  cases code <;> simp only [keyPressed, Option.some.injEq] at hstep
  case Escape => exact absurd hstep (by simp)
  all_goals
    subst hstep
    unfold ParamsInv
    dsimp only
  case Equal => exact ⟨hres, mul_pos hz h9, hM⟩
  case Dash => exact ⟨hres, div_pos hz h9, hM⟩
  case W => exact ⟨hres, hz, hM⟩
  case A => exact ⟨hres, hz, hM⟩
  case S => exact ⟨hres, hz, hM⟩
  case D => exact ⟨hres, hz, hM⟩
  case Right => exact ⟨hres, hz, hmod _⟩
  case Left => exact ⟨hres, hz, hmod _⟩
  case R => exact ⟨rfl, h4, by norm_num⟩
  case Other => exact ⟨hres, hz, hM⟩

theorem paramsInv_handleEvent {K : Type} [LinearOrderedField K] (st st1 : AppState K)
    (e : Event) (h : ParamsInv st.params) (hstep : handleEvent st e = some st1) :
    ParamsInv st1.params := by
  cases e with
  | Closed => simp [handleEvent] at hstep
  | Other =>
    simp only [handleEvent, Option.some.injEq] at hstep
    subst hstep
    exact h
  | KeyPressed code => exact paramsInv_keyPressed st.params st1 code h hstep

theorem paramsInv_of_reachable {K : Type} [LinearOrderedField K] (st : AppState K)
    (h : Reachable st) : ParamsInv st.params := by
  induction h with
  | init => exact paramsInv_defaults
  | event st st1 e _ hstep ih => exact paramsInv_handleEvent st st1 e ih hstep
  | frameEnd st _ ih => exact ih

theorem reachable_pollEvents {K : Type} [LinearOrderedField K] (evs : List Event) :
    ∀ (st st1 : AppState K), Reachable st → pollEvents st evs = some st1 → Reachable st1 := by
  induction evs with
  | nil =>
    intro st st1 hr h
    simp only [pollEvents, Option.some.injEq] at h
    exact h ▸ hr
  | cons e es ih =>
    intro st st1 hr h
    simp only [pollEvents] at h
    cases hstep : handleEvent st e with
    | none => simp [hstep] at h
    | some st2 =>
      rw [hstep] at h
      exact ih st2 st1 (Reachable.event st st2 e hr hstep) h

/-- C8 as amended. In every state reachable from the initial state by events
and frame ends, `resolution = 1` (so the stride is at least 1), `zoomDepth > 0`
over exact arithmetic, and `MAX_ITER` is an unsigned 32-bit value. -/
theorem reachable_invariant {K : Type} [LinearOrderedField K] (st : AppState K)
    (h : Reachable st) :
    1 ≤ st.params.resolution ∧ st.params.resolution = 1 ∧ 0 < st.params.zoomDepth ∧
      st.params.MAX_ITER < 2 ^ 32 := by
  obtain ⟨h1, h2, h3⟩ := paramsInv_of_reachable st h
  exact ⟨by omega, h1, h2, h3⟩

/-- Witness for C8 as amended: the state after one zoom-in key press. -/
theorem reachable_invariant_witness :
    1 ≤ ({ params := { (defaults : ViewParameters ℝ) with zoomDepth := 0.004 * 0.9 },
           render := true } : AppState ℝ).params.resolution ∧
    ({ params := { (defaults : ViewParameters ℝ) with zoomDepth := 0.004 * 0.9 },
       render := true } : AppState ℝ).params.resolution = 1 ∧
    0 < ({ params := { (defaults : ViewParameters ℝ) with zoomDepth := 0.004 * 0.9 },
           render := true } : AppState ℝ).params.zoomDepth ∧
    ({ params := { (defaults : ViewParameters ℝ) with zoomDepth := 0.004 * 0.9 },
       render := true } : AppState ℝ).params.MAX_ITER < 2 ^ 32 :=
  reachable_invariant
    ({ params := { (defaults : ViewParameters ℝ) with zoomDepth := 0.004 * 0.9 },
       render := true } : AppState ℝ)
    (Reachable.event initialState _ (Event.KeyPressed Key.Equal) Reachable.init rfl)

/-- Counterexample to C8 as stated: twelve presses of the decrease-detail key
take `MAX_ITER` from 120 to 0, a reachable state with `MAX_ITER < 1`. -/
theorem reachable_MAX_ITER_zero :
    pollEvents (initialState : AppState ℝ) (List.replicate 12 (Event.KeyPressed Key.Left)) =
      some { params := { (defaults : ViewParameters ℝ) with MAX_ITER := 0 }, render := true } ∧
    Reachable ({ params := { (defaults : ViewParameters ℝ) with MAX_ITER := 0 },
                 render := true } : AppState ℝ) ∧
    ¬ (1 ≤ ({ params := { (defaults : ViewParameters ℝ) with MAX_ITER := 0 },
              render := true } : AppState ℝ).params.MAX_ITER) := by
  have hp : pollEvents (initialState : AppState ℝ)
      (List.replicate 12 (Event.KeyPressed Key.Left)) =
      some { params := { (defaults : ViewParameters ℝ) with MAX_ITER := 0 },
             render := true } := by
    simp [pollEvents, handleEvent, keyPressed, initialState, defaults, List.replicate,
      toUInt32]
  exact ⟨hp, reachable_pollEvents _ _ _ Reachable.init hp, by simp⟩

/-! ## C9: the reset key -/

/-- C9. From every state, a press of the reset key `R` yields exactly
`zoomDepth = 0.004`, `offsetX = 0`, `offsetY = 0`, `MAX_ITER = 120` and
`resolution = 1`, which are the initial values of the globals, and leaves the
flag `render` set. -/
theorem reset_restores_defaults {K : Type} [LinearOrderedField K] (st : AppState K) :
    handleEvent st (Event.KeyPressed Key.R) =
      some { params := { MAX_ITER := 120, resolution := 1, zoomDepth := 0.004,
                         offsetY := 0, offsetX := 0 },
             render := true } ∧
    ({ MAX_ITER := 120, resolution := 1, zoomDepth := 0.004, offsetY := 0, offsetX := 0 } :
      ViewParameters K) = defaults ∧
    (0.004 : K) = 4 / 1000 := by
  refine ⟨rfl, ?_, by norm_num⟩
  simp only [defaults, ViewParameters.mk.injEq, true_and]
  constructor <;> norm_num

/-! ## C10: zooming in and out -/

theorem pollEvents_zoom_keys {K : Type} [LinearOrderedField K] (evs : List Event) :
    ∀ (st : AppState K),
      (∀ e, e ∈ evs → e = Event.KeyPressed Key.Equal ∨ e = Event.KeyPressed Key.Dash) →
      ∃ st1, pollEvents st evs = some st1 ∧
        st1.params = { st.params with
          zoomDepth := st.params.zoomDepth * 0.9 ^ evs.count (Event.KeyPressed Key.Equal) /
            0.9 ^ evs.count (Event.KeyPressed Key.Dash) } := by
  have h9 : (0.9 : K) ≠ 0 := by norm_num
  induction evs with
  | nil =>
    intro st _
    refine ⟨st, rfl, ?_⟩
    simp
  | cons e es ih =>
    intro st hall
    have hes : ∀ e1, e1 ∈ es →
        e1 = Event.KeyPressed Key.Equal ∨ e1 = Event.KeyPressed Key.Dash :=
      fun e1 he1 => hall e1 (List.mem_cons_of_mem _ he1)
    rcases hall e (List.mem_cons_self _ _) with he | he
    · subst he
      obtain ⟨st1, hst1, hp⟩ := ih
        { params := { st.params with zoomDepth := st.params.zoomDepth * 0.9 }, render := true }
        hes
      refine ⟨st1, ?_, ?_⟩
      · simp only [pollEvents, handleEvent, keyPressed, Option.some_bind]
        exact hst1
      · rw [hp]
        simp only [ViewParameters.mk.injEq, true_and, and_true]
        have hc1 : List.count (Event.KeyPressed Key.Equal) (Event.KeyPressed Key.Equal :: es) =
            List.count (Event.KeyPressed Key.Equal) es + 1 := by simp
        have hc2 : List.count (Event.KeyPressed Key.Dash) (Event.KeyPressed Key.Equal :: es) =
            List.count (Event.KeyPressed Key.Dash) es := by simp
        rw [hc1, hc2, pow_succ]
        ring
    · subst he
      obtain ⟨st1, hst1, hp⟩ := ih
        { params := { st.params with zoomDepth := st.params.zoomDepth / 0.9 }, render := true }
        hes
      refine ⟨st1, ?_, ?_⟩
      · simp only [pollEvents, handleEvent, keyPressed, Option.some_bind]
        exact hst1
      · rw [hp]
        simp only [ViewParameters.mk.injEq, true_and, and_true]
        have hc1 : List.count (Event.KeyPressed Key.Equal) (Event.KeyPressed Key.Dash :: es) =
            List.count (Event.KeyPressed Key.Equal) es := by simp
        have hc2 : List.count (Event.KeyPressed Key.Dash) (Event.KeyPressed Key.Dash :: es) =
            List.count (Event.KeyPressed Key.Dash) es + 1 := by simp
        rw [hc1, hc2, pow_succ]
        show st.params.zoomDepth / 0.9 * 0.9 ^ List.count (Event.KeyPressed Key.Equal) es /
            0.9 ^ List.count (Event.KeyPressed Key.Dash) es =
          st.params.zoomDepth * 0.9 ^ List.count (Event.KeyPressed Key.Equal) es /
            (0.9 ^ List.count (Event.KeyPressed Key.Dash) es * 0.9)
        rw [div_mul_eq_mul_div, div_div, mul_comm (0.9 : K)]

/-- C10. Over exact arithmetic, from every state and for every `n`: a sequence
of events made of zoom-in (`Equal`) and zoom-out (`Dash`) key presses only, with
`n` of each in any order, is processed to its end and returns `zoomDepth` to its
value from before, `offsetX`, `offsetY`, `MAX_ITER` and `resolution` being
unchanged. -/
theorem zoom_in_out_roundtrip {K : Type} [LinearOrderedField K] (st : AppState K)
    (evs : List Event) (n : Nat)
    (hall : ∀ e, e ∈ evs → e = Event.KeyPressed Key.Equal ∨ e = Event.KeyPressed Key.Dash)
    (hin : evs.count (Event.KeyPressed Key.Equal) = n)
    (hout : evs.count (Event.KeyPressed Key.Dash) = n) :
    ∃ st1, pollEvents st evs = some st1 ∧ st1.params = st.params ∧
      st1.params.zoomDepth = st.params.zoomDepth := by
  obtain ⟨st1, hst1, hp⟩ := pollEvents_zoom_keys evs st hall
  have h9 : (0.9 : K) ^ n ≠ 0 := pow_ne_zero n (by norm_num)
  have hparams : st1.params = st.params := by
    rw [hp, hin, hout, mul_div_assoc, div_self h9, mul_one]
  exact ⟨st1, hst1, hparams, by rw [hparams]⟩

/-- Witness for C10: zoom in, out, out, in (`n = 2`) from the initial state over
the real numbers. -/
theorem zoom_in_out_roundtrip_witness :
    ∃ st1, pollEvents (initialState : AppState ℝ)
        [Event.KeyPressed Key.Equal, Event.KeyPressed Key.Dash, Event.KeyPressed Key.Dash,
          Event.KeyPressed Key.Equal] = some st1 ∧
      st1.params = (initialState : AppState ℝ).params ∧
      st1.params.zoomDepth = (initialState : AppState ℝ).params.zoomDepth :=
  zoom_in_out_roundtrip (initialState : AppState ℝ)
    [Event.KeyPressed Key.Equal, Event.KeyPressed Key.Dash, Event.KeyPressed Key.Dash,
      Event.KeyPressed Key.Equal] 2
    (by
      intro e he
      simp only [List.mem_cons, List.mem_singleton, List.not_mem_nil, or_false] at he
      rcases he with h | h | h | h <;> simp [h])
    (by decide) (by decide)

/-! ## C11: one pan-right event -/

/-- C11. From every state, one press of the pan-right key `D` sets `offsetX` to
`offsetX + 40 * zoomDepth`, leaves `offsetY`, `zoomDepth`, `MAX_ITER` and
`resolution` as they were and sets `render`; from the initial state the new
`offsetX` is `0.16` in exact arithmetic. -/
theorem pan_right_offset {K : Type} [LinearOrderedField K] (st : AppState K) :
    handleEvent st (Event.KeyPressed Key.D) =
      some { params := { MAX_ITER := st.params.MAX_ITER, resolution := st.params.resolution,
                         zoomDepth := st.params.zoomDepth, offsetY := st.params.offsetY,
                         offsetX := st.params.offsetX + 40 * st.params.zoomDepth },
             render := true } ∧
    handleEvent (initialState : AppState K) (Event.KeyPressed Key.D) =
      some { params := { MAX_ITER := 120, resolution := 1, zoomDepth := 0.004, offsetY := 0,
                         offsetX := 0.16 },
             render := true } ∧
    (0.16 : K) = 16 / 100 := by
  refine ⟨rfl, ?_, by norm_num⟩
  simp only [handleEvent, keyPressed, initialState, defaults, Option.some.injEq,
    AppState.mk.injEq, ViewParameters.mk.injEq, true_and, and_true]
  constructor <;> norm_num

/-! ## The channel values of `colorGradient`: general facts -/

section Gradient

variable {K : Type} [LinearOrderedField K] [FloorRing K]

/-- The colour returned by `colorGradient` is black when the test of line 144
holds, and otherwise the channel values converted to `sf::Uint8`. -/
theorem colorGradient_eq_channels (M : Nat) (iterations : K) :
    colorGradient M iterations =
      if toUInt32 (truncToInt iterations) = M then sfColor 0 0 0
      else sfColor (gradientChannels iterations).r (gradientChannels iterations).g
        (gradientChannels iterations).b := by
  unfold colorGradient gradientChannels
  split
  · rfl
  · split
    · rfl
    · split
      · rfl
      · split
        · rfl
        · rfl

theorem band1_intCast (i : Int) :
    band1 ((i : Int) : K) =
      { r := intOrMin (16 * (16 - i)), g := 0, b := intOrMin (16 * i - 1) } := by
  have h1 : (16 : K) * (16 - (i : K)) = ((16 * (16 - i) : Int) : K) := by push_cast; ring
  have h2 : (16 : K) * (i : K) - 1 = ((16 * i - 1 : Int) : K) := by push_cast; ring
  simp only [band1, h1, h2, truncToInt_intCast_eq]

theorem band2_intCast (i : Int) :
    band2 ((i : Int) : K) =
      { r := 0, g := intOrMin (16 * (i - 16)), b := intOrMin (16 * (32 - i) - 1) } := by
  have h1 : (16 : K) * ((i : K) - 16) = ((16 * (i - 16) : Int) : K) := by push_cast; ring
  have h2 : (16 : K) * (32 - (i : K)) - 1 = ((16 * (32 - i) - 1 : Int) : K) := by
    push_cast; ring
  simp only [band2, h1, h2, truncToInt_intCast_eq]

theorem band3_intCast (i : Int) :
    band3 ((i : Int) : K) =
      { r := intOrMin (8 * (i - 32)), g := intOrMin (8 * (64 - i) - 1), b := 0 } := by
  have h1 : (8 : K) * ((i : K) - 32) = ((8 * (i - 32) : Int) : K) := by push_cast; ring
  have h2 : (8 : K) * (64 - (i : K)) - 1 = ((8 * (64 - i) - 1 : Int) : K) := by
    push_cast; ring
  simp only [band3, h1, h2, truncToInt_intCast_eq]

theorem band4_intCast (i : Int) :
    band4 ((i : Int) : K) = { r := intOrMin (255 - (i - 64) * 4), g := 0, b := 0 } := by
  have h1 : (255 : K) - ((i : K) - 64) * 4 = ((255 - (i - 64) * 4 : Int) : K) := by
    push_cast; ring
  simp only [band4, h1, truncToInt_intCast_eq]

/-- The channel values at a whole-number argument: each is the exact value of
its formula when that fits the 32-bit `int`, and `INT_MIN` when it does not. -/
theorem gradientChannels_intCast (i : Int) :
    gradientChannels ((i : Int) : K) =
      if i < 16 then { r := intOrMin (16 * (16 - i)), g := 0, b := intOrMin (16 * i - 1) }
      else if i < 32 then
        { r := 0, g := intOrMin (16 * (i - 16)), b := intOrMin (16 * (32 - i) - 1) }
      else if i < 64 then
        { r := intOrMin (8 * (i - 32)), g := intOrMin (8 * (64 - i) - 1), b := 0 }
      else { r := intOrMin (255 - (i - 64) * 4), g := 0, b := 0 } := by
  have c16 : ((i : K) < 16) ↔ i < 16 := by exact_mod_cast Iff.rfl
  have c32 : ((i : K) < 32) ↔ i < 32 := by exact_mod_cast Iff.rfl
  have c64 : ((i : K) < 64) ↔ i < 64 := by exact_mod_cast Iff.rfl
  simp only [gradientChannels, c16, c32, c64, band1_intCast, band2_intCast, band3_intCast,
    band4_intCast]

/-- The channel values at a whole-number argument for which no channel leaves
the 32-bit `int`. -/
theorem gradientChannels_intCast_of_fits (i : Int) (h1 : -134217711 ≤ i)
    (h2 : i ≤ 536871039) :
    gradientChannels ((i : Int) : K) =
      if i < 16 then { r := 16 * (16 - i), g := 0, b := 16 * i - 1 }
      else if i < 32 then { r := 0, g := 16 * (i - 16), b := 16 * (32 - i) - 1 }
      else if i < 64 then { r := 8 * (i - 32), g := 8 * (64 - i) - 1, b := 0 }
      else { r := 255 - (i - 64) * 4, g := 0, b := 0 } := by
  rw [gradientChannels_intCast]
  split_ifs with c1 c2 c3
  · have e1 : intOrMin (16 * (16 - i)) = 16 * (16 - i) := by
      rw [intOrMin, if_pos ⟨by omega, by omega⟩]
    have e2 : intOrMin (16 * i - 1) = 16 * i - 1 := by
      rw [intOrMin, if_pos ⟨by omega, by omega⟩]
    rw [e1, e2]
  · have e1 : intOrMin (16 * (i - 16)) = 16 * (i - 16) := by
      rw [intOrMin, if_pos ⟨by omega, by omega⟩]
    have e2 : intOrMin (16 * (32 - i) - 1) = 16 * (32 - i) - 1 := by
      rw [intOrMin, if_pos ⟨by omega, by omega⟩]
    rw [e1, e2]
  · have e1 : intOrMin (8 * (i - 32)) = 8 * (i - 32) := by
      rw [intOrMin, if_pos ⟨by omega, by omega⟩]
    have e2 : intOrMin (8 * (64 - i) - 1) = 8 * (64 - i) - 1 := by
      rw [intOrMin, if_pos ⟨by omega, by omega⟩]
    rw [e1, e2]
  · have e1 : intOrMin (255 - (i - 64) * 4) = 255 - (i - 64) * 4 := by
      rw [intOrMin, if_pos ⟨by omega, by omega⟩]
    rw [e1]

end Gradient

theorem toUInt8_ne_zero_of_odd (c : Int) (h : c % 2 = 1) : toUInt8 c ≠ 0 := by
  unfold toUInt8
  omega

theorem sfColor_eq_black_iff (r g b : Int) :
    sfColor r g b = black ↔ toUInt8 r = 0 ∧ toUInt8 g = 0 ∧ toUInt8 b = 0 := by
  have h0 : toUInt8 0 = 0 := by decide
  unfold black sfColor
  rw [h0]
  constructor
  · intro h
    exact ⟨congrArg Color.r h, congrArg Color.g h, congrArg Color.b h⟩
  · rintro ⟨hr, hg, hb⟩
    rw [hr, hg, hb]

/-- At a whole-number argument the three converted channels are all 0 exactly
when the channel formulas have left the 32-bit `int`. -/
theorem gradientChannels_all_zero_iff {K : Type} [LinearOrderedField K] [FloorRing K]
    (i : Int) :
    (toUInt8 (gradientChannels ((i : Int) : K)).r = 0 ∧
      toUInt8 (gradientChannels ((i : Int) : K)).g = 0 ∧
      toUInt8 (gradientChannels ((i : Int) : K)).b = 0) ↔
    (i ≤ -134217728 ∨ 536871040 ≤ i) := by
  rw [gradientChannels_intCast]
  unfold toUInt8 intOrMin
  split_ifs <;> dsimp only <;> omega

/-- At a whole-number argument `colorGradient` returns black exactly when the
test of line 144 holds or the channel formulas have left the 32-bit `int`. -/
theorem colorGradient_intCast_eq_black_iff {K : Type} [LinearOrderedField K] [FloorRing K]
    (M : Nat) (i : Int) :
    colorGradient M ((i : Int) : K) = black ↔
      (toUInt32 (intOrMin i) = M ∨ i ≤ -134217728 ∨ 536871040 ≤ i) := by
  rw [colorGradient_eq_channels, truncToInt_intCast_eq]
  by_cases h : toUInt32 (intOrMin i) = M
  · rw [if_pos h]
    exact ⟨fun _ => Or.inl h, fun _ => rfl⟩
  · rw [if_neg h, sfColor_eq_black_iff, gradientChannels_all_zero_iff]
    exact ⟨fun h2 => Or.inr h2, fun h2 => h2.resolve_left h⟩

/-! ## C12: escaping pixels and the colour black -/

/-- For an exit state with `4 < x*x + y*y ≤ 7.29` the expression of line 127
lies in `[iteration + 1, iteration + 2)`, so the `int` stored is `iteration + 1`. -/
theorem truncToInt_smoothExpr_of_small_radius (s : LoopState ℝ)
    (hn0 : 0 ≤ s.iteration) (hn1 : s.iteration ≤ 2147483645)
    (h4 : 4 < s.x * s.x + s.y * s.y) (h7 : s.x * s.x + s.y * s.y ≤ 7.29) :
    truncToInt (smoothExpr Real.log Real.sqrt s) = s.iteration + 1 := by
  obtain ⟨x, y, n⟩ := s
  simp only at h4 h7 hn0 hn1
  have hsqrt_lo : 2 < Real.sqrt (x * x + y * y) := by
    rw [Real.lt_sqrt (by norm_num)]
    linarith
  have hsqrt_hi : Real.sqrt (x * x + y * y) ≤ 2.7 := by
    rw [Real.sqrt_le_iff]
    constructor
    · norm_num
    · linarith
  have hspos : 0 < Real.sqrt (x * x + y * y) := lt_trans (by norm_num) hsqrt_lo
  have he_lo : (2.7 : ℝ) < Real.exp 1 := lt_trans (by norm_num) Real.exp_one_gt_d9
  have he_hi : Real.exp 1 < 4 := lt_trans Real.exp_one_lt_d9 (by norm_num)
  have hhalf : Real.exp (1 / 2) < 2 := by
    have hsq : Real.exp (1 / 2) * Real.exp (1 / 2) = Real.exp 1 := by
      rw [← Real.exp_add]
      norm_num
    have hpos : 0 < Real.exp (1 / 2) := Real.exp_pos _
    by_contra hge
    have hge2 : 2 ≤ Real.exp (1 / 2) := not_lt.1 hge
    nlinarith
  have hL_hi : Real.log (Real.sqrt (x * x + y * y)) ≤ 1 := by
    rw [Real.log_le_iff_le_exp hspos]
    linarith
  have hL_lo : 1 / 2 < Real.log (Real.sqrt (x * x + y * y)) := by
    rw [Real.lt_log_iff_exp_lt hspos]
    linarith
  have hb_hi : Real.logb 2 (Real.log (Real.sqrt (x * x + y * y))) ≤ 0 :=
    Real.logb_nonpos (by norm_num) (by linarith) hL_hi
  have hb_lo : -1 < Real.logb 2 (Real.log (Real.sqrt (x * x + y * y))) := by
    have hm1 : Real.logb 2 (1 / 2) = -1 := by
      rw [one_div, Real.logb_inv, Real.logb_self_eq_one (by norm_num)]
    rw [← hm1]
    exact Real.logb_lt_logb (by norm_num) (by norm_num) hL_lo
  have hval := smoothExpr_eq_add_one_sub n x y
  apply truncToInt_eq_of_le_of_lt _ (n + 1) (by omega) (by omega)
  · rw [hval]
    push_cast
    linarith
  · rw [hval]
    push_cast
    linarith

/-- C12, evaluated at `MAX_ITER = 10` (the state eleven decrease-detail presses
reach from the initial state) and pixel (910, 315), the point `-0.2 - 0.9i`: the
loop exits after 9 passes with `x*x + y*y > 4`, the counter still below
`MAX_ITER`, yet the smoothing branch stores 10 in `iteration` and the pixel is
coloured black.  Pixel (0, 0) at the default parameters is coloured
`(240, 0, 15)`, not black. -/
theorem escaping_pixel_coloured_black :
    pollEvents (initialState : AppState ℝ) (List.replicate 11 (Event.KeyPressed Key.Left)) =
      some { params := { (defaults : ViewParameters ℝ) with MAX_ITER := 10 }, render := true } ∧
    (pixelLoop ({ (defaults : ViewParameters ℝ) with MAX_ITER := 10 }) 910 315).iteration = 9 ∧
    4 < (pixelLoop ({ (defaults : ViewParameters ℝ) with MAX_ITER := 10 }) 910 315).x *
          (pixelLoop ({ (defaults : ViewParameters ℝ) with MAX_ITER := 10 }) 910 315).x +
        (pixelLoop ({ (defaults : ViewParameters ℝ) with MAX_ITER := 10 }) 910 315).y *
          (pixelLoop ({ (defaults : ViewParameters ℝ) with MAX_ITER := 10 }) 910 315).y ∧
    pixelIteration Real.log Real.sqrt
      ({ (defaults : ViewParameters ℝ) with MAX_ITER := 10 }) 910 315 = 10 ∧
    pixelColor Real.log Real.sqrt
      ({ (defaults : ViewParameters ℝ) with MAX_ITER := 10 }) 910 315 = black ∧
    pixelColor Real.log Real.sqrt (defaults : ViewParameters ℝ) 0 0 =
      { r := 240, g := 0, b := 15, a := 255 } := by
  have hre : pixelReal ({ (defaults : ViewParameters ℝ) with MAX_ITER := 10 }) 910 = -0.2 := by
    norm_num [pixelReal, defaults, IMG_SIZE_X]
  have him : pixelImag ({ (defaults : ViewParameters ℝ) with MAX_ITER := 10 }) 315 = -0.9 := by
    norm_num [pixelImag, defaults, IMG_SIZE_Y]
  have hloop : pixelLoop ({ (defaults : ViewParameters ℝ) with MAX_ITER := 10 }) 910 315 =
      (loopBody (-0.2 : ℝ) (-0.9))^[9] ⟨0, 0, 0⟩ := by
    unfold pixelLoop
    rw [hre, him]
    apply escapeLoop_eq_iterate
    · intro k hk
      have hc : counterBelow 10 (wrapInt32 (k : Int)) :=
        (counterBelow_wrapInt32_natCast (by norm_num) (by omega)).2 (by omega)
      refine ⟨?_, by rw [loopBody_iterate_iteration]; exact hc⟩
      interval_cases k <;>
        norm_num [Function.iterate_succ_apply', loopBody]
    · intro hc
      have h9 := hc.1
      norm_num [Function.iterate_succ_apply', loopBody] at h9
  have hit : ((loopBody (-0.2 : ℝ) (-0.9))^[9] ⟨0, 0, 0⟩).iteration = 9 := by
    rw [loopBody_iterate_iteration]
    unfold wrapInt32
    omega
  have h4 : 4 < ((loopBody (-0.2 : ℝ) (-0.9))^[9] ⟨0, 0, 0⟩).x *
        ((loopBody (-0.2 : ℝ) (-0.9))^[9] ⟨0, 0, 0⟩).x +
      ((loopBody (-0.2 : ℝ) (-0.9))^[9] ⟨0, 0, 0⟩).y *
        ((loopBody (-0.2 : ℝ) (-0.9))^[9] ⟨0, 0, 0⟩).y := by
    norm_num [Function.iterate_succ_apply', loopBody]
  have h7 : ((loopBody (-0.2 : ℝ) (-0.9))^[9] ⟨0, 0, 0⟩).x *
        ((loopBody (-0.2 : ℝ) (-0.9))^[9] ⟨0, 0, 0⟩).x +
      ((loopBody (-0.2 : ℝ) (-0.9))^[9] ⟨0, 0, 0⟩).y *
        ((loopBody (-0.2 : ℝ) (-0.9))^[9] ⟨0, 0, 0⟩).y ≤ 7.29 := by
    norm_num [Function.iterate_succ_apply', loopBody]
  have hpi : pixelIteration Real.log Real.sqrt
      ({ (defaults : ViewParameters ℝ) with MAX_ITER := 10 }) 910 315 = 10 := by
    have hc : counterBelow 10 9 := by
      unfold counterBelow toUInt32
      omega
    unfold pixelIteration
    simp only [hloop, hit]
    rw [if_pos hc, truncToInt_smoothExpr_of_small_radius _ (by rw [hit]; norm_num)
      (by rw [hit]; norm_num) h4 h7, hit]
    norm_num
  have hcorner := pixelIteration_defaults_corner
  refine ⟨?_, ?_, ?_, hpi, ?_, ?_⟩
  · simp [pollEvents, handleEvent, keyPressed, initialState, defaults, List.replicate,
      toUInt32]
  · rw [hloop, hit]
  · rw [hloop]
    exact h4
  · unfold pixelColor
    rw [hpi, colorGradient_intCast_eq_black_iff]
    left
    decide
  · unfold pixelColor
    rw [hcorner, colorGradient_eq_channels, truncToInt_intCast 1 (by norm_num) (by norm_num),
      gradientChannels_intCast_of_fits 1 (by norm_num) (by norm_num)]
    decide

/-! ## C13: the channel values are not clamped -/

/-- C13 as amended. For every `MAX_ITER` and every `int` value `i` that does not
pass the test of line 144 (`i` converted to `unsigned int` differs from
`MAX_ITER`): the three channel values `r`, `g`, `b` computed by the `if` cascade
of `colorGradient` (before the conversion to `sf::Uint8`; a channel whose
formula leaves the 32-bit `int` being stored as `INT_MIN`) all lie in `[0, 255]`
if and only if `1 ≤ i ≤ 127`; the colour returned holds these values reduced
modulo 256, unclamped; at `i = 0` the values are `r = 256`, `b = -1` (stored as
0 and 255) and at `i = 128` `r = -1` (stored as 255). -/
theorem gradient_channels_in_range_iff {K : Type} [LinearOrderedField K] [FloorRing K]
    (M : Nat) (i : Int) (hlo : -2147483648 ≤ i) (hhi : i ≤ 2147483647)
    (htest : toUInt32 i ≠ M) :
    ((gradientChannels ((i : Int) : K)).InRange ↔ 1 ≤ i ∧ i ≤ 127) ∧
    colorGradient M ((i : Int) : K) =
      { r := toUInt8 (gradientChannels ((i : Int) : K)).r,
        g := toUInt8 (gradientChannels ((i : Int) : K)).g,
        b := toUInt8 (gradientChannels ((i : Int) : K)).b, a := 255 } ∧
    gradientChannels (0 : K) = { r := 256, g := 0, b := -1 } ∧
    gradientChannels (128 : K) = { r := -1, g := 0, b := 0 } ∧
    sfColor 256 0 (-1) = { r := 0, g := 0, b := 255, a := 255 } ∧
    sfColor (-1) 0 0 = { r := 255, g := 0, b := 0, a := 255 } := by
  refine ⟨?_, ?_, ?_, ?_, by decide, by decide⟩
  · rw [gradientChannels_intCast]
    unfold Channels.InRange intOrMin
    split_ifs <;> dsimp only <;> omega
  · rw [colorGradient_eq_channels, truncToInt_intCast i hlo hhi, if_neg htest]
    rfl
  · have h0 : (0 : K) = ((0 : Int) : K) := by norm_num
    rw [h0, gradientChannels_intCast_of_fits 0 (by norm_num) (by norm_num)]
    decide
  · have h128 : (128 : K) = ((128 : Int) : K) := by norm_num
    rw [h128, gradientChannels_intCast_of_fits 128 (by norm_num) (by norm_num)]
    decide

/-- Witness for C13 as amended: `MAX_ITER = 120` and `i = 5`. -/
theorem gradient_channels_in_range_iff_witness :
    ((gradientChannels (((5 : Int) : Int) : ℝ)).InRange ↔ 1 ≤ (5 : Int) ∧ (5 : Int) ≤ 127) ∧
    colorGradient 120 (((5 : Int) : Int) : ℝ) =
      { r := toUInt8 (gradientChannels (((5 : Int) : Int) : ℝ)).r,
        g := toUInt8 (gradientChannels (((5 : Int) : Int) : ℝ)).g,
        b := toUInt8 (gradientChannels (((5 : Int) : Int) : ℝ)).b, a := 255 } :=
  have h := gradient_channels_in_range_iff (K := ℝ) 120 5 (by norm_num) (by norm_num)
    (by decide)
  ⟨h.1, h.2.1⟩

/-- Counterexample to C13 as stated: the `int` value `i = -10` differs from
`MAX_ITER = 4294967286` and lies outside `1 ≤ i ≤ 127`, yet it passes the test
of line 144, so no channel is computed: the colour is `(0, 0, 0)` and not the
channel formulas `416, 0, -161` reduced modulo 256, which would be
`(160, 0, 95)`. -/
theorem colorGradient_computes_no_channel :
    (-10 : Int) ≠ ((4294967286 : Nat) : Int) ∧
    ¬ (1 ≤ (-10 : Int) ∧ (-10 : Int) ≤ 127) ∧
    toUInt32 (truncToInt (((-10 : Int) : Int) : ℝ)) = 4294967286 ∧
    colorGradient 4294967286 (((-10 : Int) : Int) : ℝ) = { r := 0, g := 0, b := 0, a := 255 } ∧
    gradientChannels (((-10 : Int) : Int) : ℝ) = { r := 416, g := 0, b := -161 } ∧
    sfColor 416 0 (-161) = { r := 160, g := 0, b := 95, a := 255 } := by
  have ht : toUInt32 (truncToInt (((-10 : Int) : Int) : ℝ)) = 4294967286 := by
    rw [truncToInt_intCast (-10) (by norm_num) (by norm_num)]
    unfold toUInt32
    omega
  refine ⟨by omega, by omega, ht, ?_, ?_, by decide⟩
  · rw [colorGradient_eq_channels, if_pos ht]
    rfl
  · rw [gradientChannels_intCast_of_fits (-10) (by norm_num) (by norm_num)]
    decide

/-! ## C14: a pan key shifts the view by 40 pixels -/

/-- The exit state of the loop and the colour of a pixel depend on the view
parameters only through the point the pixel maps to and `MAX_ITER`. -/
theorem pixelColor_congr {K : Type} [LinearOrderedField K] [FloorRing K] (log sqrt : K → K)
    (p q : ViewParameters K) (h v h1 v1 : Nat) (hM : p.MAX_ITER = q.MAX_ITER)
    (hre : pixelReal p h = pixelReal q h1) (him : pixelImag p v = pixelImag q v1) :
    pixelLoop p h v = pixelLoop q h1 v1 ∧
    pixelColor log sqrt p h v = pixelColor log sqrt q h1 v1 := by
  have hloop : pixelLoop p h v = pixelLoop q h1 v1 := by
    unfold pixelLoop
    rw [hre, him, hM]
  refine ⟨hloop, ?_⟩
  unfold pixelColor pixelIteration
  simp only [hloop, hM]

/-- C14. Over exact arithmetic, from every state and for every pixel `(h, v)`:
after the pan-right key `D`, pixel `(h, v)` maps to the point pixel `(h + 40, v)`
mapped to before the event and is given the colour that pixel was given; after
the pan-left key `A` the same holds with `(h - 40, v)` when `40 ≤ h`; after the
pan-down key `S` with `(h, v + 40)`; after the pan-up key `W` with `(h, v - 40)`
when `40 ≤ v`. -/
theorem pan_shifts_view_by_forty_pixels {K : Type} [LinearOrderedField K] [FloorRing K]
    (log sqrt : K → K) (st : AppState K) (h v : Nat) :
    (∃ st1, handleEvent st (Event.KeyPressed Key.D) = some st1 ∧
      pixelReal st1.params h = pixelReal st.params (h + 40) ∧
      pixelImag st1.params v = pixelImag st.params v ∧
      pixelColor log sqrt st1.params h v = pixelColor log sqrt st.params (h + 40) v) ∧
    (40 ≤ h → ∃ st1, handleEvent st (Event.KeyPressed Key.A) = some st1 ∧
      pixelReal st1.params h = pixelReal st.params (h - 40) ∧
      pixelImag st1.params v = pixelImag st.params v ∧
      pixelColor log sqrt st1.params h v = pixelColor log sqrt st.params (h - 40) v) ∧
    (∃ st1, handleEvent st (Event.KeyPressed Key.S) = some st1 ∧
      pixelReal st1.params h = pixelReal st.params h ∧
      pixelImag st1.params v = pixelImag st.params (v + 40) ∧
      pixelColor log sqrt st1.params h v = pixelColor log sqrt st.params h (v + 40)) ∧
    (40 ≤ v → ∃ st1, handleEvent st (Event.KeyPressed Key.W) = some st1 ∧
      pixelReal st1.params h = pixelReal st.params h ∧
      pixelImag st1.params v = pixelImag st.params (v - 40) ∧
      pixelColor log sqrt st1.params h v = pixelColor log sqrt st.params h (v - 40)) := by
  refine ⟨?_, ?_, ?_, ?_⟩
  · have hre : pixelReal ({ st.params with
        offsetX := st.params.offsetX + 40 * st.params.zoomDepth }) h =
        pixelReal st.params (h + 40) := by
      simp only [pixelReal]
      push_cast
      ring
    exact ⟨⟨_, true⟩, rfl, hre, rfl,
      (pixelColor_congr log sqrt
        ({ st.params with offsetX := st.params.offsetX + 40 * st.params.zoomDepth })
        st.params h v (h + 40) v rfl hre rfl).2⟩
  · intro h40
    have hre : pixelReal ({ st.params with
        offsetX := st.params.offsetX - 40 * st.params.zoomDepth }) h =
        pixelReal st.params (h - 40) := by
      simp only [pixelReal]
      rw [Nat.cast_sub h40]
      push_cast
      ring
    exact ⟨⟨_, true⟩, rfl, hre, rfl,
      (pixelColor_congr log sqrt
        ({ st.params with offsetX := st.params.offsetX - 40 * st.params.zoomDepth })
        st.params h v (h - 40) v rfl hre rfl).2⟩
  · have him : pixelImag ({ st.params with
        offsetY := st.params.offsetY + 40 * st.params.zoomDepth }) v =
        pixelImag st.params (v + 40) := by
      simp only [pixelImag]
      push_cast
      ring
    exact ⟨⟨_, true⟩, rfl, rfl, him,
      (pixelColor_congr log sqrt
        ({ st.params with offsetY := st.params.offsetY + 40 * st.params.zoomDepth })
        st.params h v h (v + 40) rfl rfl him).2⟩
  · intro v40
    have him : pixelImag ({ st.params with
        offsetY := st.params.offsetY - 40 * st.params.zoomDepth }) v =
        pixelImag st.params (v - 40) := by
      simp only [pixelImag]
      rw [Nat.cast_sub v40]
      push_cast
      ring
    exact ⟨⟨_, true⟩, rfl, rfl, him,
      (pixelColor_congr log sqrt
        ({ st.params with offsetY := st.params.offsetY - 40 * st.params.zoomDepth })
        st.params h v h (v - 40) rfl rfl him).2⟩

/-! ## C15: the decrease-detail key -/

/-- C15 as amended. In every reachable state a press of the decrease-detail key
`Left` sets `MAX_ITER` to `MAX_ITER - 10` reduced modulo `2 ^ 32`: the value is
lowered by exactly 10 when `MAX_ITER ≥ 10`, and becomes
`MAX_ITER - 10 + 2 ^ 32` when `MAX_ITER < 10`; nothing else changes. -/
theorem decrease_detail_wraps {K : Type} [LinearOrderedField K] (st : AppState K)
    (hreach : Reachable st) :
    ∃ st1, handleEvent st (Event.KeyPressed Key.Left) = some st1 ∧
      (10 ≤ st.params.MAX_ITER →
        (st1.params.MAX_ITER : Int) = (st.params.MAX_ITER : Int) - 10) ∧
      (st.params.MAX_ITER < 10 →
        (st1.params.MAX_ITER : Int) = (st.params.MAX_ITER : Int) - 10 + 2 ^ 32) ∧
      st1.params.resolution = st.params.resolution ∧
      st1.params.zoomDepth = st.params.zoomDepth ∧
      st1.params.offsetX = st.params.offsetX ∧
      st1.params.offsetY = st.params.offsetY := by
  have hM : st.params.MAX_ITER < 2 ^ 32 := (paramsInv_of_reachable st hreach).2.2
  refine ⟨_, rfl, ?_, ?_, rfl, rfl, rfl, rfl⟩
  · intro h10
    show ((toUInt32 ((st.params.MAX_ITER : Int) - 10) : Nat) : Int) = _
    unfold toUInt32
    omega
  · intro h10
    show ((toUInt32 ((st.params.MAX_ITER : Int) - 10) : Nat) : Int) = _
    unfold toUInt32
    omega

/-- Witness for C15 as amended: the initial state, where `MAX_ITER` goes from
120 to 110. -/
theorem decrease_detail_wraps_witness :
    ∃ st1, handleEvent (initialState : AppState ℝ) (Event.KeyPressed Key.Left) = some st1 ∧
      (10 ≤ (initialState : AppState ℝ).params.MAX_ITER →
        (st1.params.MAX_ITER : Int) = ((initialState : AppState ℝ).params.MAX_ITER : Int) - 10) ∧
      ((initialState : AppState ℝ).params.MAX_ITER < 10 →
        (st1.params.MAX_ITER : Int) =
          ((initialState : AppState ℝ).params.MAX_ITER : Int) - 10 + 2 ^ 32) ∧
      st1.params.resolution = (initialState : AppState ℝ).params.resolution ∧
      st1.params.zoomDepth = (initialState : AppState ℝ).params.zoomDepth ∧
      st1.params.offsetX = (initialState : AppState ℝ).params.offsetX ∧
      st1.params.offsetY = (initialState : AppState ℝ).params.offsetY :=
  decrease_detail_wraps (initialState : AppState ℝ) Reachable.init

/-- Counterexample to C15 as stated: after twelve decrease-detail presses
`MAX_ITER` is 0, and the thirteenth press sets it to `4294967286`, which is
`0 - 10 + 2 ^ 32` and not `0 - 10`. -/
theorem decrease_detail_wraps_at_zero :
    pollEvents (initialState : AppState ℝ) (List.replicate 12 (Event.KeyPressed Key.Left)) =
      some { params := { (defaults : ViewParameters ℝ) with MAX_ITER := 0 }, render := true } ∧
    Reachable ({ params := { (defaults : ViewParameters ℝ) with MAX_ITER := 0 },
                 render := true } : AppState ℝ) ∧
    handleEvent ({ params := { (defaults : ViewParameters ℝ) with MAX_ITER := 0 },
                   render := true } : AppState ℝ) (Event.KeyPressed Key.Left) =
      some { params := { (defaults : ViewParameters ℝ) with MAX_ITER := 4294967286 },
             render := true } ∧
    ((4294967286 : Nat) : Int) ≠ ((0 : Nat) : Int) - 10 := by
  have hp : pollEvents (initialState : AppState ℝ)
      (List.replicate 12 (Event.KeyPressed Key.Left)) =
      some { params := { (defaults : ViewParameters ℝ) with MAX_ITER := 0 },
             render := true } := by
    simp [pollEvents, handleEvent, keyPressed, initialState, defaults, List.replicate,
      toUInt32]
  refine ⟨hp, reachable_pollEvents _ _ _ Reachable.init hp, ?_, by decide⟩
  simp [handleEvent, keyPressed, defaults, toUInt32]

/-! ## C16: the band boundaries -/

/-- C16. At each band boundary `i = 16, 32, 64` the channel values of the lower
band's assignments at `i`, clamped to `[0, 255]`, equal the channel values of
the upper band's assignments at `i`; at `i = 16` the first band gives `r = 0`,
`g = 0`, `b = 255` and the second band gives `r = 0`. -/
theorem bands_agree_at_boundaries {K : Type} [LinearOrderedField K] [FloorRing K] :
    clampChannels (band1 (16 : K)) = band2 (16 : K) ∧
    clampChannels (band2 (32 : K)) = band3 (32 : K) ∧
    clampChannels (band3 (64 : K)) = band4 (64 : K) ∧
    band1 (16 : K) = { r := 0, g := 0, b := 255 } ∧
    (band2 (16 : K)).r = 0 ∧
    band2 (32 : K) = { r := 0, g := 256, b := -1 } ∧
    band3 (64 : K) = { r := 256, g := -1, b := 0 } := by
  have h16 : (16 : K) = ((16 : Int) : K) := by norm_num
  have h32 : (32 : K) = ((32 : Int) : K) := by norm_num
  have h64 : (64 : K) = ((64 : Int) : K) := by norm_num
  rw [h16, h32, h64]
  simp only [band1_intCast, band2_intCast, band3_intCast, band4_intCast]
  decide

/-! ## C17: when `colorGradient` returns black -/

/-- At a whole-number argument for which no channel formula leaves the 32-bit
`int`, one of the three channel values is odd. -/
theorem gradientChannels_odd {K : Type} [LinearOrderedField K] [FloorRing K] (i : Int)
    (hlo : -134217727 ≤ i) (hhi : i ≤ 536871039) :
    (gradientChannels ((i : Int) : K)).r % 2 = 1 ∨
    (gradientChannels ((i : Int) : K)).g % 2 = 1 ∨
    (gradientChannels ((i : Int) : K)).b % 2 = 1 := by
  rw [gradientChannels_intCast]
  unfold intOrMin
  split_ifs <;> dsimp only <;> omega

/-- C17 as amended. For every `MAX_ITER` and every `int` value `i`,
`colorGradient` returns black if and only if `i` converted to `unsigned int`
(reduced modulo `2 ^ 32`) equals `MAX_ITER`, or `i ≤ -134217728`, or
`i ≥ 536871040`; beyond these two bounds the channel formulas leave the 32-bit
`int` and are stored as `INT_MIN`, whose low byte is 0.  For
`-134217727 ≤ i ≤ 536871039` it returns black if and only if `i` reduced modulo
`2 ^ 32` equals `MAX_ITER`, which for `0 ≤ i` is `i = MAX_ITER`, and in every
band one of the channel values is odd, hence non-zero after reduction modulo
256. -/
theorem colorGradient_black_iff {K : Type} [LinearOrderedField K] [FloorRing K]
    (M : Nat) (i : Int) (hlo : -2147483648 ≤ i) (hhi : i ≤ 2147483647) :
    (colorGradient M ((i : Int) : K) = black ↔
      (toUInt32 i = M ∨ i ≤ -134217728 ∨ 536871040 ≤ i)) ∧
    (-134217727 ≤ i ∧ i ≤ 536871039 →
      (colorGradient M ((i : Int) : K) = black ↔ toUInt32 i = M) ∧
      ((gradientChannels ((i : Int) : K)).r % 2 = 1 ∨
        (gradientChannels ((i : Int) : K)).g % 2 = 1 ∨
        (gradientChannels ((i : Int) : K)).b % 2 = 1)) ∧
    (0 ≤ i ∧ i ≤ 536871039 →
      (colorGradient M ((i : Int) : K) = black ↔ i = (M : Int))) := by
  have hfit : intOrMin i = i := by
    rw [intOrMin, if_pos ⟨hlo, hhi⟩]
  have hmain := colorGradient_intCast_eq_black_iff (K := K) M i
  rw [hfit] at hmain
  refine ⟨hmain, ?_, ?_⟩
  · rintro ⟨h1, h2⟩
    refine ⟨?_, gradientChannels_odd i h1 h2⟩
    rw [hmain]
    constructor
    · rintro (h | h | h)
      · exact h
      · omega
      · omega
    · exact fun h => Or.inl h
  · rintro ⟨h1, h2⟩
    rw [hmain]
    unfold toUInt32
    omega

/-- Witness for C17 as amended: `MAX_ITER = 120` and `i = 120`. -/
theorem colorGradient_black_iff_witness :
    colorGradient 120 (((120 : Int) : Int) : ℝ) = black ↔ (120 : Int) = ((120 : Nat) : Int) :=
  (colorGradient_black_iff (K := ℝ) 120 120 (by norm_num) (by norm_num)).2.2
    ⟨by norm_num, by norm_num⟩

/-- Counterexample to C17 as stated: with `MAX_ITER = 4294967286` (the value
thirteen decrease-detail presses reach) and the `int` value `i = -10`,
`colorGradient` returns black although `i` differs from `MAX_ITER`. -/
theorem colorGradient_black_at_negative :
    colorGradient 4294967286 (((-10 : Int) : Int) : ℝ) = black ∧
    ((-10 : Int) ≠ ((4294967286 : Nat) : Int)) := by
  refine ⟨?_, by decide⟩
  rw [colorGradient_intCast_eq_black_iff]
  left
  unfold toUInt32 intOrMin
  rw [if_pos ⟨by norm_num, by norm_num⟩]
  omega

/-! ## C18: mirror symmetry about the horizontal centre line -/

section Mirror

variable {K : Type} [LinearOrderedField K]

theorem loopBody_iterate_conj (re im : K) (k : Nat) :
    (loopBody re (-im))^[k] ⟨0, 0, 0⟩ =
      ⟨((loopBody re im)^[k] ⟨0, 0, 0⟩).x, -((loopBody re im)^[k] ⟨0, 0, 0⟩).y,
        ((loopBody re im)^[k] ⟨0, 0, 0⟩).iteration⟩ := by
  induction k with
  | zero => simp
  | succ k ih =>
    rw [Function.iterate_succ_apply', Function.iterate_succ_apply', ih]
    simp only [loopBody, LoopState.mk.injEq, and_true]
    constructor <;> ring

theorem loopTest_iterate_conj (re im : K) (M k : Nat) :
    loopTest M ((loopBody re (-im))^[k] ⟨0, 0, 0⟩) ↔
      loopTest M ((loopBody re im)^[k] ⟨0, 0, 0⟩) := by
  rw [loopBody_iterate_conj]
  simp only [loopTest, neg_mul_neg]

/-- The loop at the conjugate point exits after the same number of passes, with
the same `x` and the opposite `y`. -/
theorem escapeLoop_conj (re im : K) (M : Nat) :
    escapeLoop re (-im) M ⟨0, 0, 0⟩ =
      ⟨(escapeLoop re im M ⟨0, 0, 0⟩).x, -(escapeLoop re im M ⟨0, 0, 0⟩).y,
        (escapeLoop re im M ⟨0, 0, 0⟩).iteration⟩ := by
  obtain ⟨n, hn, hbefore, hafter⟩ := escapeLoop_passes re im M ⟨0, 0, 0⟩
  rw [hn, ← loopBody_iterate_conj]
  apply escapeLoop_eq_iterate
  · intro k hk
    exact (loopTest_iterate_conj re im M k).2 (hbefore k hk)
  · intro h
    exact hafter ((loopTest_iterate_conj re im M n).1 h)

end Mirror

/-- C18. With `offsetY = 0`, for every `zoomDepth`, `offsetX` and `MAX_ITER`,
every column `h` and every row `v` with `1 ≤ v ≤ 1079`: pixels `(h, v)` and
`(h, 1080 - v)` map to the same real part and opposite imaginary parts; their
loops exit after the same number of passes with the same `x`, opposite `y` and
the same `x*x + y*y`; the value passed to `colorGradient` and the colour are the
same; and a render with stride 1 leaves the same colour at the two pixels. -/
theorem mirror_symmetry {K : Type} [LinearOrderedField K] [FloorRing K] (log sqrt : K → K)
    (p : ViewParameters K) (hy : p.offsetY = 0) (h v : Nat) (hv1 : 1 ≤ v) (hv2 : v ≤ 1079) :
    pixelImag p (1080 - v) = -pixelImag p v ∧
    (pixelLoop p h (1080 - v)).iteration = (pixelLoop p h v).iteration ∧
    (pixelLoop p h (1080 - v)).x = (pixelLoop p h v).x ∧
    (pixelLoop p h (1080 - v)).y = -(pixelLoop p h v).y ∧
    (pixelLoop p h (1080 - v)).x * (pixelLoop p h (1080 - v)).x +
        (pixelLoop p h (1080 - v)).y * (pixelLoop p h (1080 - v)).y =
      (pixelLoop p h v).x * (pixelLoop p h v).x + (pixelLoop p h v).y * (pixelLoop p h v).y ∧
    pixelIteration log sqrt p h (1080 - v) = pixelIteration log sqrt p h v ∧
    pixelColor log sqrt p h (1080 - v) = pixelColor log sqrt p h v ∧
    ∀ (img : Image) (hh : h < IMG_SIZE_X), p.resolution = 1 →
      ∃ out, render log sqrt p img = some out ∧
        out ⟨h, hh⟩ ⟨1080 - v, by unfold IMG_SIZE_Y; omega⟩ =
          out ⟨h, hh⟩ ⟨v, by unfold IMG_SIZE_Y; omega⟩ := by
  have him : pixelImag p (1080 - v) = -pixelImag p v := by
    simp only [pixelImag, hy, IMG_SIZE_Y]
    rw [Nat.cast_sub (by omega)]
    push_cast
    ring
  have hloop : pixelLoop p h (1080 - v) =
      ⟨(pixelLoop p h v).x, -(pixelLoop p h v).y, (pixelLoop p h v).iteration⟩ := by
    unfold pixelLoop
    rw [him, escapeLoop_conj]
  have hsq : (pixelLoop p h (1080 - v)).x * (pixelLoop p h (1080 - v)).x +
        (pixelLoop p h (1080 - v)).y * (pixelLoop p h (1080 - v)).y =
      (pixelLoop p h v).x * (pixelLoop p h v).x +
        (pixelLoop p h v).y * (pixelLoop p h v).y := by
    rw [hloop]
    simp only [neg_mul_neg]
  have hpi : pixelIteration log sqrt p h (1080 - v) = pixelIteration log sqrt p h v := by
    unfold pixelIteration smoothExpr
    simp only [hsq]
    rw [hloop]
  have hcol : pixelColor log sqrt p h (1080 - v) = pixelColor log sqrt p h v := by
    unfold pixelColor
    rw [hpi]
  refine ⟨him, by rw [hloop], by rw [hloop], by rw [hloop], hsq, hpi, hcol, ?_⟩
  intro img hh hres
  obtain ⟨out, hout, hspec⟩ := render_spec log sqrt p (by omega) img
  refine ⟨out, hout, ?_⟩
  rw [hspec, hspec, hres, if_pos ⟨Nat.one_dvd _, Nat.one_dvd _⟩,
    if_pos ⟨Nat.one_dvd _, Nat.one_dvd _⟩]
  exact hcol

/-- Witness for C18: the default parameters over the real numbers, column 0,
rows 1 and 1079. -/
theorem mirror_symmetry_witness :
    pixelColor Real.log Real.sqrt (defaults : ViewParameters ℝ) 0 (1080 - 1) =
      pixelColor Real.log Real.sqrt (defaults : ViewParameters ℝ) 0 1 :=
  (mirror_symmetry Real.log Real.sqrt (defaults : ViewParameters ℝ)
    (by norm_num [defaults]) 0 1 (by norm_num) (by norm_num)).2.2.2.2.2.2.1

/-! ## C19: the stride is 1 and a render writes every pixel once -/

/-- Two `for` loops whose bodies commute with a map `f` of their states have
results that correspond under `f`. -/
theorem forLoop_map {σ τ : Type} (bound stride : Nat) (f : τ → σ)
    (b1 : Nat → σ → Option σ) (b2 : Nat → τ → Option τ)
    (hb : ∀ i t, b1 i (f t) = (b2 i t).map f) :
    ∀ fuel i t,
      forLoop bound stride b1 fuel i (f t) = (forLoop bound stride b2 fuel i t).map f := by
  intro fuel
  induction fuel with
  | zero =>
    intro i t
    unfold forLoop
    split <;> rfl
  | succ fuel ih =>
    intro i t
    rw [forLoop, forLoop]
    split
    · rw [hb]
      cases b2 i t with
      | none => rfl
      | some t1 => exact ih (i + stride) t1
    · rfl

theorem applyWrites_append (c : Nat → Nat → Color) (img : Image) (w : List (Nat × Nat))
    (hv : Nat × Nat) :
    applyWrites c img (w ++ [hv]) = setPixel (applyWrites c img w) hv.1 hv.2 (c hv.1 hv.2) := by
  unfold applyWrites
  rw [List.foldl_append]
  rfl

/-- The render step performs exactly the calls of `renderWrites`. -/
theorem render_eq_applyWrites {K : Type} [LinearOrderedField K] [FloorRing K]
    (log sqrt : K → K) (p : ViewParameters K) (img : Image) :
    render log sqrt p img =
      (renderWrites p.resolution).map (applyWrites (pixelColor log sqrt p) img) := by
  have hcol : ∀ (horizontal : Nat) (w : List (Nat × Nat)),
      renderColumn log sqrt p horizontal (applyWrites (pixelColor log sqrt p) img w) =
        (renderColumnWrites p.resolution horizontal w).map
          (applyWrites (pixelColor log sqrt p) img) := by
    intro horizontal w
    unfold renderColumn renderColumnWrites
    apply forLoop_map
    intro i t
    simp only [Option.map_some', applyWrites_append]
  have h := forLoop_map IMG_SIZE_X p.resolution (applyWrites (pixelColor log sqrt p) img)
    (fun horizontal im => renderColumn log sqrt p horizontal im)
    (fun horizontal w => renderColumnWrites p.resolution horizontal w)
    hcol IMG_SIZE_X 0 []
  exact h

/-- With stride 1 the inner loop appends the pixels of one column, top to bottom. -/
theorem renderColumnWrites_one (horizontal : Nat) (w : List (Nat × Nat)) :
    renderColumnWrites 1 horizontal w =
      some (w ++ (List.range IMG_SIZE_Y).map (fun v => (horizontal, v))) := by
  have h := forLoop_invariant IMG_SIZE_Y 1
    (fun vertical l => some (l ++ [(horizontal, vertical)])) (by norm_num)
    (fun i l => i ≤ IMG_SIZE_Y ∧ l = w ++ (List.range i).map (fun v => (horizontal, v)))
    (by
      rintro i l hi ⟨_, hl⟩
      refine ⟨_, rfl, hi, ?_⟩
      rw [hl, List.range_succ, List.map_append, List.append_assoc]
      rfl)
    IMG_SIZE_Y 0 w (by omega) ⟨Nat.zero_le _, by simp⟩
  obtain ⟨out, j, hout, hj, hj2, hspec⟩ := h
  have hjeq : j = IMG_SIZE_Y := Nat.le_antisymm hj2 hj
  unfold renderColumnWrites
  rw [hout, hspec, hjeq]

/-- With stride 1 the render step writes the pixels column by column. -/
theorem renderWrites_one :
    renderWrites 1 = some (List.product (List.range IMG_SIZE_X) (List.range IMG_SIZE_Y)) := by
  have h := forLoop_invariant IMG_SIZE_X 1
    (fun horizontal l => renderColumnWrites 1 horizontal l) (by norm_num)
    (fun i l => i ≤ IMG_SIZE_X ∧ l = List.product (List.range i) (List.range IMG_SIZE_Y))
    (by
      rintro i l hi ⟨_, hl⟩
      refine ⟨_, renderColumnWrites_one i l, hi, ?_⟩
      rw [hl, List.range_succ]
      simp only [List.product, List.flatMap_append, List.flatMap_cons, List.flatMap_nil,
        List.append_nil])
    IMG_SIZE_X 0 [] (by omega) ⟨Nat.zero_le _, by simp [List.product]⟩
  obtain ⟨out, j, hout, hj, hj2, hspec⟩ := h
  have hjeq : j = IMG_SIZE_X := Nat.le_antisymm hj2 hj
  unfold renderWrites
  rw [hout, hspec, hjeq]

/-- An element of a list without duplicates occurs in it exactly once. -/
theorem count_eq_one_of_nodup_of_mem {α : Type} [BEq α] [LawfulBEq α] (a : α) :
    ∀ (l : List α), l.Nodup → a ∈ l → l.count a = 1 := by
  intro l
  induction l with
  | nil =>
    intro _ h
    exact absurd h (List.not_mem_nil a)
  | cons x xs ih =>
    intro hd hmem
    rw [List.nodup_cons] at hd
    rw [List.count_cons]
    by_cases hxa : x = a
    · subst hxa
      rw [List.count_eq_zero_of_not_mem hd.1]
      simp
    · have hmem2 : a ∈ xs := by
        rcases List.mem_cons.1 hmem with h | h
        · exact absurd h.symm hxa
        · exact h
      rw [ih hd.2 hmem2]
      simp [hxa]

/-- C19. In every reachable state `resolution = 1`; a render step ends, and
the sequence of its `img.setPixel` calls holds every pixel of the 1920 x 1080
image exactly once and no other coordinate (2073600 calls); the image after the
render is the image after these calls, every pixel holding the colour of the
loop body at that pixel. -/
theorem reachable_render_writes_each_pixel_once {K : Type} [LinearOrderedField K]
    [FloorRing K] (log sqrt : K → K) (st : AppState K) (hreach : Reachable st) :
    st.params.resolution = 1 ∧
    ∃ writes, renderWrites st.params.resolution = some writes ∧
      (∀ (a : Fin IMG_SIZE_X) (b : Fin IMG_SIZE_Y), writes.count (a.val, b.val) = 1) ∧
      (∀ hv : Nat × Nat, hv ∈ writes → hv.1 < IMG_SIZE_X ∧ hv.2 < IMG_SIZE_Y) ∧
      writes.Nodup ∧
      writes.length = IMG_SIZE_X * IMG_SIZE_Y ∧
      IMG_SIZE_X * IMG_SIZE_Y = 2073600 ∧
      ∀ img : Image,
        render log sqrt st.params img =
          some (applyWrites (pixelColor log sqrt st.params) img writes) ∧
        ∀ (a : Fin IMG_SIZE_X) (b : Fin IMG_SIZE_Y),
          applyWrites (pixelColor log sqrt st.params) img writes a b =
            pixelColor log sqrt st.params a.val b.val := by
  have hres : st.params.resolution = 1 := (paramsInv_of_reachable st hreach).1
  have hnodup : (List.product (List.range IMG_SIZE_X) (List.range IMG_SIZE_Y)).Nodup :=
    List.Nodup.product (List.nodup_range _) (List.nodup_range _)
  refine ⟨hres, List.product (List.range IMG_SIZE_X) (List.range IMG_SIZE_Y), ?_, ?_, ?_,
    hnodup, ?_, by norm_num [IMG_SIZE_X, IMG_SIZE_Y], ?_⟩
  · rw [hres, renderWrites_one]
  · intro a b
    apply count_eq_one_of_nodup_of_mem _ _ hnodup
    exact List.mem_product.2 ⟨List.mem_range.2 a.isLt, List.mem_range.2 b.isLt⟩
  · intro hv hmem
    have hmem2 := List.mem_product.1 hmem
    exact ⟨List.mem_range.1 hmem2.1, List.mem_range.1 hmem2.2⟩
  · have hlen := List.length_product (List.range IMG_SIZE_X) (List.range IMG_SIZE_Y)
    rw [List.length_range, List.length_range] at hlen
    exact hlen
  · intro img
    have hrender := render_eq_applyWrites log sqrt st.params img
    rw [hres, renderWrites_one] at hrender
    refine ⟨hrender, ?_⟩
    intro a b
    obtain ⟨out, hout, hspec⟩ := render_spec log sqrt st.params (by omega) img
    rw [hrender] at hout
    have hout2 := Option.some.inj hout
    rw [hout2, hspec, hres, if_pos ⟨Nat.one_dvd _, Nat.one_dvd _⟩]

/-- Witness for C19: the initial state over the real numbers. -/
theorem reachable_render_writes_each_pixel_once_witness :
    (initialState : AppState ℝ).params.resolution = 1 ∧
    ∃ writes, renderWrites (initialState : AppState ℝ).params.resolution = some writes ∧
      (∀ (a : Fin IMG_SIZE_X) (b : Fin IMG_SIZE_Y), writes.count (a.val, b.val) = 1) :=
  have h := reachable_render_writes_each_pixel_once Real.log Real.sqrt
    (initialState : AppState ℝ) Reachable.init
  ⟨h.1, h.2.choose, h.2.choose_spec.1, h.2.choose_spec.2.1⟩

end Mandelbrot
